import Mathlib

/-!
A verification development for the DocuDots PDF-outline extractor.

The repository contains two overlapping implementations of the
heading/title classification pipeline:

* `src/main.py` (class `PDFStructureAnalyzer`) — the "script" pipeline,
  modelled below in namespace `Main`;
* `docudots_module/core.py` (class `PDFAnalyzer`) together with
  `docudots_module/multilingual.py` — the "module" pipeline, modelled in
  namespaces `Core` and `MLMod`;
* `src/utils/multilingual.py` — a second multilingual helper, modelled in
  namespace `MLUtils`.

Modelling conventions (shallow embedding):

* Python strings are `List Char`; `str.lower`, `str.isupper`, `str.istitle`,
  `str.isdigit`, `str.split`, `str.strip` and the regular expressions used
  by the code are modelled character by character for the ASCII/Latin and
  Arabic ranges the code actually tests (the code only ever matches ASCII
  classes plus fixed Unicode ranges, so the models below are exact on
  every input).
* Python floats (font sizes, coordinates, scores) are `ℚ`.  The sources
  only ever combine them with `+ - * / min round` and comparisons, all of
  which are exact on the test values; `round(x, 2)` is modelled as exact
  half-to-even rounding on `ℚ`.
* `unicodedata.normalize('NFC'/'NFKC'/'NFD', ·)` and the Unicode
  combining-mark category `Mn` are external library functions; they are
  taken as parameters (`nfc`, `nfkc`, `nfd`, `isMn`) of the definitions
  that call them, so every theorem below holds for the real functions.
* `collections.Counter.most_common(1)` and Python's `max(..., key=...)`
  return the first maximiser in insertion order; both are modelled by a
  left fold that replaces the current best only on a strictly larger
  count, which returns the element of maximal count whose first
  occurrence is earliest (proved in the C4 theorems below).
* Python's `list.sort(key=...)` is a stable sort by a total preorder; it
  is modelled by `List.insertionSort`, which is stable and sorts by the
  given relation.
-/

/-! ## Character-level models of Python string primitives -/

/-- Python `\s` (ASCII whitespace as used by `re.sub(r'\s+', ' ')` and
`str.strip()` on the texts handled here). -/
def isSpaceChar (c : Char) : Bool :=
  c = ' ' ∨ c = '\t' ∨ c = '\n' ∨ c = '\r' ∨ c = '\x0b' ∨ c = '\x0c'

/-- One step of whitespace-run collapsing (`re.sub(r'\s+', ' ', text)`):
a whitespace character is dropped if the already-collapsed suffix starts
with the space it would produce, otherwise it becomes a single space. -/
def collapseStep (c : Char) (acc : List Char) : List Char :=
  if isSpaceChar c then
    match acc with
    | ' ' :: _ => acc
    | _ => ' ' :: acc
  else c :: acc

/-- Model of `re.sub(r'\s+', ' ', text)`: collapse every whitespace run to one space. -/
def collapseWS (l : List Char) : List Char :=
  l.foldr collapseStep []

/-- Model of `str.strip()`: drop leading and trailing whitespace. -/
def stripChars (l : List Char) : List Char :=
  ((l.dropWhile isSpaceChar).reverse.dropWhile isSpaceChar).reverse

def isAsciiUpper (c : Char) : Bool := 'A' ≤ c ∧ c ≤ 'Z'

def isAsciiLower (c : Char) : Bool := 'a' ≤ c ∧ c ≤ 'z'

def isAsciiAlpha (c : Char) : Bool := isAsciiUpper c ∨ isAsciiLower c

def isAsciiDigit (c : Char) : Bool := '0' ≤ c ∧ c ≤ '9'

/-- Model of `str.lower()` on one character (ASCII; the only cased characters in
the texts the code compares case-insensitively). -/
def lowerChar (c : Char) : Char :=
  if isAsciiUpper c then Char.ofNat (c.toNat + 32) else c

/-- Model of `str.lower()`. -/
def lowerStr (l : List Char) : List Char := l.map lowerChar

/-- Python's substring test `needle in hay`. -/
def containsSub (needle hay : List Char) : Bool :=
  (List.range (hay.length + 1)).any (fun i => needle.isPrefixOf (hay.drop i))

/-- Model of `any(p in text for p in ps)`. -/
def containsAnySub (ps : List (List Char)) (hay : List Char) : Bool :=
  ps.any (fun p => containsSub p hay)

/-- Model of `str.split()` (split on whitespace runs, dropping empty fields). -/
def splitWS (l : List Char) : List (List Char) :=
  (l.splitOnP isSpaceChar).filter (fun w => ¬ w.isEmpty)

/-- Model of `len(text.split())`. -/
def wordCount (l : List Char) : ℕ := (splitWS l).length

/-- Model of `str.isupper()`: at least one cased character and no lowercase one. -/
def isUpperStr (l : List Char) : Bool :=
  l.any isAsciiAlpha ∧ ¬ l.any isAsciiLower

/-- Helper for `str.istitle()`: scan tracking whether the previous
character was cased. -/
def isTitleAux (prevCased : Bool) : List Char → Bool
  | [] => true
  | c :: rest =>
    if isAsciiUpper c then (¬ prevCased) ∧ isTitleAux true rest
    else if isAsciiLower c then prevCased ∧ isTitleAux true rest
    else isTitleAux false rest

/-- Model of `str.istitle()` (ASCII): uppercase letters only follow uncased
characters, lowercase letters only follow cased ones, and at least one
cased character exists. -/
def isTitleStr (l : List Char) : Bool :=
  l.any isAsciiAlpha ∧ isTitleAux false l

/-- Model of `str.isdigit()` (ASCII digits). -/
def isDigitStr (l : List Char) : Bool :=
  (¬ l.isEmpty) ∧ l.all isAsciiDigit

/-- Model of `text.split('.')[0]`: the segment before the first `'.'`. -/
def beforeFirstDot (l : List Char) : List Char :=
  l.takeWhile (fun c => c ≠ '.')

/-- Model of `str.replace(' ', '')`. -/
def removeSpaces (l : List Char) : List Char :=
  l.filter (fun c => c ≠ ' ')

/-- Model of `str.endswith(('.', '!', '?'))`. -/
def endsWithSentencePunct (l : List Char) : Bool :=
  match l.reverse with
  | [] => false
  | c :: _ => c = '.' ∨ c = '!' ∨ c = '?'

/-- Model of `str.endswith(':')`. -/
def endsWithColon (l : List Char) : Bool :=
  match l.reverse with
  | [] => false
  | c :: _ => c = ':'

/-! Anchored models of the regular expressions in
`_classify_heading_levels`.  All character classes involved are mutually
disjoint from `\.` and `\s`, so greedy matching without backtracking is
exact. -/

/-- After the leading character class: an optional `'.'` followed by at
least one whitespace character. -/
def optDotThenSpace (l : List Char) : Bool :=
  match l with
  | '.' :: rest => (match rest with | c :: _ => isSpaceChar c | [] => false)
  | c :: _ => isSpaceChar c
  | [] => false

/-- Model of `re.match(r'^[0-9]+\.?\s+', text)`. -/
def matchNumDotSpace (l : List Char) : Bool :=
  match l.span isAsciiDigit with
  | (ds, rest) => (! ds.isEmpty) && optDotThenSpace rest

/-- Model of `re.match(r'^[0-9]+\.[0-9]+\.?\s+', text)`. -/
def matchNumNumSpace (l : List Char) : Bool :=
  match l.span isAsciiDigit with
  | (ds, rest) =>
    (! ds.isEmpty) &&
    (match rest with
     | '.' :: rest2 =>
       (match rest2.span isAsciiDigit with
        | (ds2, rest3) => (! ds2.isEmpty) && optDotThenSpace rest3)
     | _ => false)

/-- Model of `re.match(r'^[a-zA-Z][\)\.]\s+', text)`. -/
def matchLetterMarkSpace (l : List Char) : Bool :=
  match l with
  | a :: m :: c :: _ => isAsciiAlpha a ∧ (m = ')' ∨ m = '.') ∧ isSpaceChar c
  | _ => false

def isRomanChar (c : Char) : Bool :=
  let d := lowerChar c
  d = 'i' ∨ d = 'v' ∨ d = 'x' ∨ d = 'l' ∨ d = 'c'

/-- Model of `re.match(r'^[ivxlc]+\.?\s+', text, re.I)`. -/
def matchRomanSpace (l : List Char) : Bool :=
  match l.span isRomanChar with
  | (rs, rest) => (¬ rs.isEmpty) ∧ optDotThenSpace rest

/-- Python `round(x, 2)` (half-to-even) on exact rationals. -/
def pyRound2 (q : ℚ) : ℚ :=
  let s : ℚ := q * 100
  let n : ℤ := ⌊s⌋
  let f : ℚ := s - n
  if f < 1/2 then (n : ℚ) / 100
  else if 1/2 < f then ((n : ℚ) + 1) / 100
  else if n % 2 = 0 then (n : ℚ) / 100 else ((n : ℚ) + 1) / 100

/-- First maximiser of a full-list count, scanning left to right and
replacing the current best only on a strictly greater count.  This is the
exact behaviour of `collections.Counter.most_common(1)[0][0]` and of
Python's `max(counts, key=counts.get)`: both return, among the values of
maximal multiplicity, the one whose first occurrence is earliest. -/
def firstModeAux (l : List ℚ) (b : ℚ) (rest : List ℚ) : ℚ :=
  rest.foldl (fun best x => if l.count x > l.count best then x else best) b

/-! ## Data model shared by both pipelines -/

/-- Heading level tags `"H1" | "H2" | "H3"`. -/
inductive HLevel where
  | H1 : HLevel
  | H2 : HLevel
  | H3 : HLevel
deriving DecidableEq, Repr

/-! ## The script pipeline (`src/main.py`, class `PDFStructureAnalyzer`) -/

namespace Main

/-- Model of `block["position"]` of `_extract_text_blocks`. -/
structure Pos where
  x : ℚ
  y : ℚ
  width : ℚ
  height : ℚ
deriving DecidableEq, Repr

/-- A text block as produced by `_extract_text_blocks` (the fields the
pipeline reads; `page_number` is 1-indexed). -/
structure TextBlock where
  text : List Char
  font_size : ℚ
  font_name : List Char
  is_bold : Bool
  page_number : ℕ
  position : Pos
deriving DecidableEq, Repr

/-- The part of the `_analyze_font_styles` result read downstream:
`body_font_size` and `font_size_stats["average"]`. -/
structure FontAnalysis where
  body_font_size : ℚ
  average : ℚ
deriving DecidableEq, Repr

/-- Model of `Counter(font_sizes).most_common(1)[0][0]` (see `firstModeAux`);
`12.0` on an empty population as in the code's guard. -/
def mostCommonSize : List ℚ → ℚ
  | [] => 12
  | x :: xs => firstModeAux (x :: xs) x xs

/-- Model of `_analyze_font_styles` (the consumed fields).  On empty input the code
returns the default dictionary with `body_font_size = 12.0` and an empty
stats dictionary; the absent average is modelled as the sentinel `0`. -/
def analyzeFontStyles (blocks : List TextBlock) : FontAnalysis :=
  match blocks with
  | [] => { body_font_size := 12, average := 0 }
  | _ =>
    let sizes := blocks.map (fun b => b.font_size)
    { body_font_size := mostCommonSize sizes
      average := pyRound2 (sizes.sum / (sizes.length : ℚ)) }

/-- The noise-marker list of `_filter_heading_candidates` (matched
case-insensitively as substrings). -/
def noiseMarkers : List (List Char) :=
  [("figure").toList, ("table").toList, ("page").toList, ("www.").toList,
   ("http").toList, ("@").toList, ("copyright").toList, ("©").toList,
   ("et al.").toList, ("ibid").toList]

/-- A heading candidate: a block copy plus its `heading_score`. -/
structure Candidate extends TextBlock where
  heading_score : ℚ
deriving DecidableEq, Repr

/-- Model of `size_threshold = max(body_font_size * 1.1, avg_font_size * 1.05)`. -/
def sizeThreshold (fa : FontAnalysis) : ℚ :=
  max (fa.body_font_size * (11/10)) (fa.average * (105/100))

/-- The `is_potential_heading` test of `_filter_heading_candidates`. -/
def isPotentialHeading (fa : FontAnalysis) (b : TextBlock) : Prop :=
  b.font_size > sizeThreshold fa ∨
  (b.is_bold = true ∧ b.font_size ≥ fa.body_font_size * (9/10)) ∨
  b.font_size > fa.average * (13/10)

instance (fa : FontAnalysis) (b : TextBlock) :
    Decidable (isPotentialHeading fa b) := by
  unfold isPotentialHeading; infer_instance

/-- The additive `heading_score` of `_filter_heading_candidates`,
computed on `text = block["text"].strip()`. -/
def headingScore (fa : FontAnalysis) (b : TextBlock) : ℚ :=
  let text := stripChars b.text
  let wc := wordCount text
  let r := b.font_size / fa.body_font_size
  min 40 ((r - 1) * 20) +
  (if b.is_bold then 20 else 0) +
  (if wc ≤ 8 then (20 : ℚ) - 2 * wc else 0) +
  (if b.position.y < 200 then 10 else 0) +
  (if ¬ endsWithSentencePunct text then 5 else 0) +
  (if isUpperStr text ∧ text.length > 3 ∧ text.length < 50 then 10 else 0) +
  (if isDigitStr (removeSpaces (beforeFirstDot text)) then 8 else 0)

/-- The per-block body of the `_filter_heading_candidates` loop: `none`
models `continue`, `some` the appended `block_copy` with its rounded
score. -/
def candidateOf (fa : FontAnalysis) (b : TextBlock) : Option Candidate :=
  let text := stripChars b.text
  if text.length < 3 ∨ text.length > 200 then none
  else if containsAnySub noiseMarkers (lowerStr text) then none
  else if ¬ isPotentialHeading fa b then none
  else if headingScore fa b ≥ 25 then
    some { b with heading_score := pyRound2 (headingScore fa b) }
  else none

/-- Sort key `(page_number, position.y)`, non-decreasing. -/
def blockLe (a b : Candidate) : Prop :=
  a.page_number < b.page_number ∨
  (a.page_number = b.page_number ∧ a.position.y ≤ b.position.y)

instance : DecidableRel blockLe := by
  unfold blockLe; infer_instance

/-- Model of `_filter_heading_candidates`: reject, score, then stable-sort by
`(page_number, position.y)`. -/
def filterHeadingCandidates (blocks : List TextBlock) (fa : FontAnalysis) :
    List Candidate :=
  List.insertionSort blockLe (blocks.filterMap (candidateOf fa))

/-- Model of `h1_patterns` of `_classify_heading_levels`. -/
def h1Patterns : List (List Char) :=
  [("abstract").toList, ("introduction").toList, ("conclusion").toList,
   ("summary").toList, ("overview").toList, ("background").toList,
   ("methodology").toList, ("results").toList, ("discussion").toList,
   ("references").toList, ("about").toList, ("experience").toList,
   ("education").toList, ("skills").toList, ("projects").toList,
   ("contact").toList, ("objective").toList, ("profile").toList,
   ("qualifications").toList, ("achievements").toList, ("awards").toList]

/-- Model of `h2_patterns` of `_classify_heading_levels`. -/
def h2Patterns : List (List Char) :=
  [("work experience").toList, ("employment history").toList,
   ("professional experience").toList, ("technical skills").toList,
   ("core competencies").toList, ("key skills").toList,
   ("expertise").toList, ("certifications").toList,
   ("publications").toList, ("research").toList, ("languages").toList,
   ("extracurricular").toList, ("activities").toList,
   ("volunteering").toList, ("interests").toList, ("tools").toList,
   ("technologies").toList, ("software").toList, ("platforms").toList]

/-- Model of `h3_patterns` of `_classify_heading_levels`. -/
def h3Patterns : List (List Char) :=
  [("programming languages").toList, ("frameworks").toList,
   ("databases").toList, ("operating systems").toList,
   ("web technologies").toList, ("mobile development").toList,
   ("cloud platforms").toList, ("project management").toList,
   ("soft skills").toList, ("leadership").toList,
   ("communication").toList]

/-- Model of `title_indicators` of `_classify_heading_levels`. -/
def titleIndicators : List (List Char) :=
  [("university").toList, ("college").toList, ("institute").toList,
   ("company").toList, ("corporation").toList, ("ltd").toList,
   ("inc").toList, ("llc").toList, ("technologies").toList,
   ("systems").toList, ("solutions").toList]

/-- The three accumulated level scores (`h1_score`, `h2_score`,
`h3_score`; Python integers). -/
structure ClassScores where
  h1 : ℕ
  h2 : ℕ
  h3 : ℕ
deriving DecidableEq, Repr

/-- Count of curated-pattern hits (`for pattern in ps: if pattern in
text_lower: score += w`). -/
def patternHits (ps : List (List Char)) (textLower : List Char) : ℕ :=
  (ps.filter (fun p => containsSub p textLower)).length

/-- The score-accumulation phase of `_classify_heading_levels` for one
candidate: lexical patterns, position bands, word-count bands, size-ratio
bands, bold, all-caps, numbering/colon markers and institution words. -/
def classifyScores (fa : FontAnalysis) (c : Candidate) : ClassScores :=
  let text := stripChars c.text
  let textLower := lowerStr text
  let wc := wordCount text
  let r := c.font_size / fa.body_font_size
  let y := c.position.y
  let lex : ClassScores :=
    { h1 := 25 * patternHits h1Patterns textLower
      h2 := 20 * patternHits h2Patterns textLower
      h3 := 15 * patternHits h3Patterns textLower }
  let pos : ClassScores :=
    if y < 150 then { h1 := 20, h2 := 0, h3 := 0 }
    else if y < 300 then { h1 := 10, h2 := 15, h3 := 0 }
    else if y < 500 then { h1 := 0, h2 := 10, h3 := 5 }
    else { h1 := 0, h2 := 0, h3 := 10 }
  let len : ClassScores :=
    if wc = 1 then { h1 := 15, h2 := 10, h3 := 0 }
    else if wc ≤ 3 then { h1 := 10, h2 := 15, h3 := 5 }
    else if wc ≤ 6 then { h1 := 0, h2 := 10, h3 := 10 }
    else { h1 := 0, h2 := 0, h3 := 5 }
  let typ : ClassScores :=
    if r ≥ 2 then { h1 := 20, h2 := 0, h3 := 0 }
    else if r ≥ 16/10 then { h1 := 15, h2 := 10, h3 := 0 }
    else if r ≥ 13/10 then { h1 := 5, h2 := 15, h3 := 5 }
    else if r ≥ 11/10 then { h1 := 0, h2 := 10, h3 := 10 }
    else { h1 := 0, h2 := 0, h3 := 15 }
  let bold : ClassScores :=
    if c.is_bold then { h1 := 15, h2 := 15, h3 := 10 }
    else { h1 := 0, h2 := 0, h3 := 0 }
  let caps : ClassScores :=
    if isUpperStr text ∧ text.length > 2 then { h1 := 20, h2 := 10, h3 := 0 }
    else { h1 := 0, h2 := 0, h3 := 0 }
  let num : ClassScores :=
    if matchNumDotSpace text then { h1 := 15, h2 := 20, h3 := 0 }
    else if matchNumNumSpace text then { h1 := 0, h2 := 25, h3 := 10 }
    else if matchLetterMarkSpace text then { h1 := 0, h2 := 15, h3 := 20 }
    else if matchRomanSpace text then { h1 := 0, h2 := 10, h3 := 15 }
    else { h1 := 0, h2 := 0, h3 := 0 }
  let colon : ClassScores :=
    if containsSub ([':']) text ∧ ¬ endsWithColon text then
      { h1 := 0, h2 := 10, h3 := 15 }
    else if endsWithColon text then { h1 := 10, h2 := 20, h3 := 0 }
    else { h1 := 0, h2 := 0, h3 := 0 }
  let inst : ClassScores :=
    if containsAnySub titleIndicators textLower then
      { h1 := 0, h2 := 15, h3 := 10 }
    else { h1 := 0, h2 := 0, h3 := 0 }
  { h1 := lex.h1 + pos.h1 + len.h1 + typ.h1 + bold.h1 + caps.h1 + num.h1 +
          colon.h1 + inst.h1
    h2 := lex.h2 + pos.h2 + len.h2 + typ.h2 + bold.h2 + caps.h2 + num.h2 +
          colon.h2 + inst.h2
    h3 := lex.h3 + pos.h3 + len.h3 + typ.h3 + bold.h3 + caps.h3 + num.h3 +
          colon.h3 + inst.h3 }

/-- The fallback branch of the final classification (`size_ratio` and
boldness only). -/
def fallbackLevel (r : ℚ) (bold : Bool) (wc : ℕ) : HLevel :=
  if r ≥ 15/10 ∨ (bold = true ∧ wc ≤ 2) then HLevel.H1
  else if r ≥ 12/10 ∨ (bold = true ∧ wc ≤ 4) then HLevel.H2
  else HLevel.H3

/-- The final-classification chain of `_classify_heading_levels`:
`max_score = max(h1, h2, h3)`, then the `H1`/`H2`/`H3` floor checks in
order, else the fallback. -/
def resolveLevel (s : ClassScores) (fb : HLevel) : HLevel :=
  let m := max s.h1 (max s.h2 s.h3)
  if m = s.h1 ∧ s.h1 ≥ 25 then HLevel.H1
  else if m = s.h2 ∧ s.h2 ≥ 20 then HLevel.H2
  else if m = s.h3 ∧ s.h3 ≥ 15 then HLevel.H3
  else fb

/-- A classified heading (the dictionary built at the end of the
`_classify_heading_levels` loop; `final` is `max_score`). -/
structure Classified where
  level : HLevel
  text : List Char
  page : ℕ
  position : Pos
  font_size : ℚ
  is_bold : Bool
  heading_score : ℚ
  size_ratio : ℚ
  scores : ClassScores
  final : ℕ
deriving DecidableEq, Repr

/-- One iteration of the `_classify_heading_levels` loop. -/
def classifyOne (fa : FontAnalysis) (c : Candidate) : Classified :=
  let text := stripChars c.text
  let wc := wordCount text
  let r := c.font_size / fa.body_font_size
  let s := classifyScores fa c
  { level := resolveLevel s (fallbackLevel r c.is_bold wc)
    text := text
    page := c.page_number
    position := c.position
    font_size := c.font_size
    is_bold := c.is_bold
    heading_score := c.heading_score
    size_ratio := pyRound2 r
    scores := s
    final := max s.h1 (max s.h2 s.h3) }

/-- The neighbour-based adjustment of `_refine_heading_hierarchy` for a
heading with a previous and a next neighbour.  Because the Python code
mutates the shared dictionaries in place, the previous neighbour carries
its possibly already-updated level while the next one is still
unprocessed. -/
def adjustHeading (prev : Option Classified) (cur next : Classified) :
    Classified :=
  match prev with
  | none => cur
  | some p =>
    if cur.level = HLevel.H1 ∧ p.level = HLevel.H3 ∧
        next.level = HLevel.H3 then
      (if cur.scores.h2 ≥ 15 then { cur with level := HLevel.H2 } else cur)
    else if cur.level = HLevel.H3 ∧ p.level = HLevel.H2 ∧
        next.level = HLevel.H2 then
      (if cur.scores.h2 ≥ cur.scores.h3 then { cur with level := HLevel.H2 }
       else cur)
    else cur

/-- The forward pass of `_refine_heading_hierarchy`; `prev` is the
already-refined predecessor (`headings[i-1]` after in-place mutation). -/
def refineAux (prev : Option Classified) : List Classified → List Classified
  | [] => []
  | [x] => [x]
  | x :: y :: rest =>
    let x1 := adjustHeading prev x y
    x1 :: refineAux (some x1) (y :: rest)

/-- Model of `_refine_heading_hierarchy`. -/
def refineHeadingHierarchy (headings : List Classified) : List Classified :=
  if headings.length ≤ 1 then headings else refineAux none headings

/-- Sort key `(page, position.y)` on classified headings. -/
def classifiedLe (a b : Classified) : Prop :=
  a.page < b.page ∨ (a.page = b.page ∧ a.position.y ≤ b.position.y)

instance : DecidableRel classifiedLe := by
  unfold classifiedLe; infer_instance

/-- Model of `_classify_heading_levels`: score and resolve each candidate, sort by
`(page, position.y)`, then refine the hierarchy. -/
def classifyHeadingLevels (cands : List Candidate) (fa : FontAnalysis) :
    List Classified :=
  match cands with
  | [] => []
  | _ =>
    refineHeadingHierarchy
      (List.insertionSort classifiedLe (cands.map (classifyOne fa)))

/-- Python `max` over a list of rationals (first maximiser; only the
value is used here). -/
def maxQ : List ℚ → ℚ
  | [] => 0
  | x :: xs => xs.foldl max x

/-- The rejection list of `_identify_document_title` ("Skip obvious
non-titles"). -/
def titleNoiseMarkers : List (List Char) :=
  [("page").toList, ("figure").toList, ("table").toList,
   ("abstract").toList, ("introduction").toList, ("www.").toList,
   ("http").toList, ("@").toList, ("copyright").toList, ("©").toList]

/-- The survivor conditions of the `_identify_document_title` scoring
loop (length bounds and noise rejection on the stripped text). -/
def titleEligible (b : TextBlock) : Prop :=
  let text := stripChars b.text
  ¬ (text.length < 5 ∨ text.length > 150) ∧
  ¬ containsAnySub titleNoiseMarkers (lowerStr text) = true

instance (b : TextBlock) : Decidable (titleEligible b) := by
  unfold titleEligible; infer_instance

/-- Model of `title_score` of `_identify_document_title`. -/
def titleScore (b : TextBlock) : ℚ :=
  let text := stripChars b.text
  let wc := wordCount text
  min 40 (b.font_size * 2) +
  (if b.is_bold then 20 else 0) +
  (if b.page_number = 1 then 20 else if b.page_number = 2 then 10 else 0) +
  (if b.position.y < 200 then 15 else if b.position.y < 400 then 10 else 0) +
  (if 2 ≤ wc ∧ wc ≤ 12 then (15 : ℚ) - |(wc : ℚ) - 6| else 0) +
  (if ¬ (stripChars b.text).reverse.take 1 = ['.'] ∧
      ¬ ("Fig").toList.isPrefixOf text ∧ ¬ ("Table").toList.isPrefixOf text
   then 10 else 0)

/-- One iteration of the best-title fold (`continue` leaves the
accumulator unchanged; a strictly greater score replaces it). -/
def titleFoldStep (acc : List Char × ℚ) (b : TextBlock) : List Char × ℚ :=
  if ¬ titleEligible b then acc
  else if titleScore b > acc.2 then (stripChars b.text, titleScore b) else acc

/-- Model of `title_candidates` of `_identify_document_title`: the spans of pages
1–2. -/
def titlePageBlocks (blocks : List TextBlock) : List TextBlock :=
  blocks.filter (fun b => b.page_number ≤ 2)

/-- Model of `largest_text_blocks` of `_identify_document_title`: the spans
within 95% of the maximum font size among pages 1–2. -/
def sizeQualifying (blocks : List TextBlock) : List TextBlock :=
  (titlePageBlocks blocks).filter
    (fun b => b.font_size ≥
      maxQ ((titlePageBlocks blocks).map (fun c => c.font_size)) * (95/100))

/-- Model of `_identify_document_title`. -/
def identifyDocumentTitle (blocks : List TextBlock) : List Char :=
  match blocks with
  | [] => ("Untitled Document").toList
  | _ =>
    match titlePageBlocks blocks with
    | [] => ("Untitled Document").toList
    | _ =>
      let largest := sizeQualifying blocks
      let best := largest.foldl titleFoldStep ([], 0)
      let bestTitle :=
        if best.1 = [] then
          (match largest with
           | [] => ([] : List Char)
           | b :: _ => stripChars b.text)
        else best.1
      if bestTitle = [] then ("Untitled Document").toList else bestTitle

/-- A heading of the final structural outline (level, text, page and the
x/y position kept by `_extract_headings_from_blocks`). -/
structure FinalHeading where
  level : HLevel
  text : List Char
  page : ℕ
  x : ℚ
  y : ℚ
deriving DecidableEq, Repr

/-- The `structural_outline` value (`title` plus `headings`). -/
structure Outline where
  title : List Char
  headings : List FinalHeading
deriving DecidableEq, Repr

/-- Model of `_extract_headings_from_blocks`: the empty guard (which returns an
empty title), font analysis, candidate filtering, classification,
title identification, and the `[:20]` truncation. -/
def extractHeadingsFromBlocks (blocks : List TextBlock) : Outline :=
  match blocks with
  | [] => { title := [], headings := [] }
  | _ =>
    let fa := analyzeFontStyles blocks
    let cands := filterHeadingCandidates blocks fa
    let classified := classifyHeadingLevels cands fa
    let title := identifyDocumentTitle blocks
    { title := title
      headings := (classified.take 20).map
        (fun h => { level := h.level, text := h.text, page := h.page,
                    x := h.position.x, y := h.position.y }) }

end Main

/-! ## The module pipeline (`docudots_module/core.py`, `_identify_headings`) -/

namespace Core

/-- A text block as collected by `_analyze_pdf_structure` (`page` is the
0-indexed `page_num`; the bounding box keeps the span's `y0` for
reasoning about reading order). -/
structure CBlock where
  text : List Char
  page : ℕ
  font_size : ℚ
  font_flags : ℕ
  x0 : ℚ
  y0 : ℚ
deriving DecidableEq, Repr

/-- Model of `max(size_counts, key=size_counts.get)` (see `firstModeAux`); the
enclosing function guards against empty input. -/
def bodySize : List ℚ → ℚ
  | [] => 0
  | x :: xs => firstModeAux (x :: xs) x xs

/-- Python `max(blocks, key=lambda x: x["font_size"])` over a non-empty
list: the first block of maximal font size. -/
def firstMaxByFont (b : CBlock) (rest : List CBlock) : CBlock :=
  rest.foldl (fun best x => if x.font_size > best.font_size then x else best) b

/-- A heading candidate of `_identify_headings`. -/
structure CoreCand where
  level : HLevel
  text : List Char
  page : ℕ
  font_size : ℚ
  size_ratio : ℚ
  is_bold : Bool
deriving DecidableEq, Repr

/-- A heading of the clean output (`level`, `text`, `page`). -/
structure CoreHeading where
  level : HLevel
  text : List Char
  page : ℕ
deriving DecidableEq, Repr

/-- The multi-factor candidate classification of `_identify_headings`
for one block (`None` models a block that is not a heading). -/
def classifyBlock (body : ℚ) (title : List Char) (b : CBlock) :
    Option CoreCand :=
  if b.text = title then none
  else
    let r := b.font_size / body
    let bold := b.font_flags &&& 16 ≠ 0
    let text := stripChars b.text
    let isShort := wordCount text ≤ 8
    let isCapitalized := isUpperStr text ∨ isTitleStr text
    if r ≥ 15/10 ∨ (r ≥ 12/10 ∧ bold) then
      some { level := HLevel.H1, text := text, page := b.page,
             font_size := b.font_size, size_ratio := r,
             is_bold := decide bold }
    else if r ≥ 115/100 ∨ (r ≥ 105/100 ∧ bold) ∨ (isCapitalized ∧ isShort) then
      some { level := HLevel.H2, text := text, page := b.page,
             font_size := b.font_size, size_ratio := r,
             is_bold := decide bold }
    else if bold ∧ isShort ∧ r ≥ 95/100 then
      some { level := HLevel.H3, text := text, page := b.page,
             font_size := b.font_size, size_ratio := r,
             is_bold := decide bold }
    else none

/-- Sort key `(page, -font_size)`: page ascending, font size descending. -/
def candLe (a b : CoreCand) : Prop :=
  a.page < b.page ∨ (a.page = b.page ∧ b.font_size ≤ a.font_size)

instance : DecidableRel candLe := by
  unfold candLe; infer_instance

/-- Model of `_identify_headings` (parametrised by
`config.MAX_HEADINGS_PER_DOCUMENT`, default 50): empty guard, body-size
mode, title = first largest block of page 0, candidate classification,
stable sort by `(page, -font_size)`, truncation, clean output. -/
def identifyHeadings (maxHeadings : ℕ) (blocks : List CBlock) :
    List Char × List CoreHeading :=
  match blocks with
  | [] => (("Untitled Document").toList, [])
  | _ =>
    let body := bodySize (blocks.map (fun b => b.font_size))
    let title :=
      match blocks.filter (fun b => b.page = 0) with
      | [] => ("Untitled Document").toList
      | b :: rest => (firstMaxByFont b rest).text
    let cands := blocks.filterMap (classifyBlock body title)
    let sorted := List.insertionSort candLe cands
    let finalHeadings := sorted.take maxHeadings
    (title, finalHeadings.map
      (fun c => { level := c.level, text := c.text, page := c.page }))

end Core

/-! ## `src/utils/multilingual.py` (`MultilingualSupport`) -/

namespace MLUtils

def inRange (lo hi : ℕ) (c : Char) : Bool :=
  lo ≤ c.toNat ∧ c.toNat ≤ hi

/-- Model of `script_patterns` of `MultilingualSupport`, in declaration order.
Each pattern is a one-character class, so `len(re.findall(p, text))` is
a character count. -/
def scriptPatterns : List (List Char × (Char → Bool)) :=
  [(("latin").toList, isAsciiAlpha),
   (("cyrillic").toList, inRange 0x0400 0x04FF),
   (("arabic").toList, inRange 0x0600 0x06FF),
   (("chinese").toList, inRange 0x4e00 0x9fff),
   (("japanese_hiragana").toList, inRange 0x3040 0x309f),
   (("japanese_katakana").toList, inRange 0x30a0 0x30ff),
   (("korean").toList, inRange 0xac00 0xd7af),
   (("thai").toList, inRange 0x0e00 0x0e7f),
   (("devanagari").toList, inRange 0x0900 0x097f)]

/-- Model of `detect_script`: count matches per script, keep the scripts with at
least one match, return the first one of maximal count (Python `max`
over dict insertion order), or `'unknown'`. -/
def detectScript (t : List Char) : List Char :=
  match t with
  | [] => ("unknown").toList
  | _ =>
    let counts := scriptPatterns.map (fun np => (np.1, t.countP np.2))
    match counts.filter (fun nc => nc.2 > 0) with
    | [] => ("unknown").toList
    | c :: cs =>
      (cs.foldl (fun best x => if x.2 > best.2 then x else best) c).1

/-- The Arabic diacritic ranges stripped by `normalize_text`
(`[ً-ٰٟۖ-ۭ]`). -/
def isArabicDiacritic (c : Char) : Bool :=
  (0x064B ≤ c.toNat ∧ c.toNat ≤ 0x065F) ∨ c.toNat = 0x0670 ∨
  (0x06D6 ≤ c.toNat ∧ c.toNat ≤ 0x06ED)

/-- Model of `normalize_text`, with `unicodedata.normalize('NFC', ·)` abstracted
as `nfc`: Unicode-normalize, collapse whitespace, strip, then — only
when the detected script of the result is `'arabic'` — strip the Arabic
diacritic ranges. -/
def normalizeText (nfc : List Char → List Char) (t : List Char) :
    List Char :=
  match t with
  | [] => []
  | _ =>
    let u := stripChars (collapseWS (nfc t))
    if detectScript u = ("arabic").toList then
      u.filter (fun c => ! isArabicDiacritic c)
    else u

end MLUtils

/-! ## `docudots_module/multilingual.py` (`MultilingualProcessor`) -/

namespace MLMod

/-- Model of `script_patterns` of `MultilingualProcessor`, in declaration order
(this version also knows Hebrew, and lists Devanagari before Thai). -/
def scriptPatterns : List (List Char × (Char → Bool)) :=
  [(("latin").toList, isAsciiAlpha),
   (("cyrillic").toList, MLUtils.inRange 0x0400 0x04FF),
   (("arabic").toList, MLUtils.inRange 0x0600 0x06FF),
   (("chinese").toList, MLUtils.inRange 0x4e00 0x9fff),
   (("japanese_hiragana").toList, MLUtils.inRange 0x3040 0x309F),
   (("japanese_katakana").toList, MLUtils.inRange 0x30A0 0x30FF),
   (("korean").toList, MLUtils.inRange 0xAC00 0xD7AF),
   (("devanagari").toList, MLUtils.inRange 0x0900 0x097F),
   (("thai").toList, MLUtils.inRange 0x0E00 0x0E7F),
   (("hebrew").toList, MLUtils.inRange 0x0590 0x05FF)]

/-- Model of `script_to_language` of `detect_script`. -/
def scriptToLanguage : List (List Char × List Char) :=
  [(("latin").toList, ("latin").toList),
   (("cyrillic").toList, ("cyrillic").toList),
   (("arabic").toList, ("arabic").toList),
   (("chinese").toList, ("chinese").toList),
   (("japanese_hiragana").toList, ("japanese").toList),
   (("japanese_katakana").toList, ("japanese").toList),
   (("korean").toList, ("korean").toList),
   (("devanagari").toList, ("hindi").toList),
   (("thai").toList, ("thai").toList),
   (("hebrew").toList, ("hebrew").toList)]

/-- Model of `detect_script`: per-script match ratios (count divided by text
length — every script keeps an entry since the length is positive), the
first maximal ratio wins, then the script is mapped to its language
family. -/
def detectScript (t : List Char) : List Char :=
  match t with
  | [] => ("unknown").toList
  | _ =>
    let scores : List (List Char × ℚ) :=
      scriptPatterns.map
        (fun np => (np.1, (t.countP np.2 : ℚ) / (t.length : ℚ)))
    match scores with
    | [] => ("unknown").toList
    | c :: cs =>
      let primary := (cs.foldl (fun best x => if x.2 > best.2 then x else best) c).1
      ((scriptToLanguage.lookup primary).getD primary)

/-- Model of `_remove_diacritics`, with `unicodedata.normalize('NFD', ·)`
abstracted as `nfd` and the `Mn` category test as `isMn`. -/
def removeDiacritics (nfd : List Char → List Char) (isMn : Char → Bool)
    (t : List Char) : List Char :=
  (nfd t).filter (fun c => ! isMn c)

/-- Model of `_normalize_width`: map full-width ASCII (`U+FF01`–`U+FF5E`) to
half-width; every other character is kept unchanged. -/
def normalizeWidth (t : List Char) : List Char :=
  t.map (fun c =>
    if 0xFF01 ≤ c.toNat ∧ c.toNat ≤ 0xFF5E then Char.ofNat (c.toNat - 0xFEE0)
    else c)

/-- Model of `normalize_text` of `MultilingualProcessor`: NFKC (abstracted as
`nfkc`), whitespace collapse and strip, script detection, then diacritic
removal for `arabic`/`hebrew` or width normalization for
`chinese`/`japanese`. -/
def normalizeText (nfkc nfd : List Char → List Char) (isMn : Char → Bool)
    (t : List Char) : List Char :=
  match t with
  | [] => []
  | _ =>
    let u := stripChars (collapseWS (nfkc t))
    let s := detectScript u
    if s = ("arabic").toList ∨ s = ("hebrew").toList then
      removeDiacritics nfd isMn u
    else if s = ("chinese").toList ∨ s = ("japanese").toList then
      normalizeWidth u
    else u

end MLMod

/-! ## Spec-side definitions

Definitions in this section follow the wording of the specification (and
of the claims under scrutiny), for comparison against the code model
above.  Concrete inputs used by counterexamples and witnesses follow. -/

/-- The resolution rule exactly as the spec states it: the level of
highest accumulated score wins (ties by priority `H1 > H2 > H3`); if the
winning level's score is below its floor (25/20/15), fall back to the
size/boldness rule. -/
def claimC1Resolve (s : Main.ClassScores) (fb : HLevel) : HLevel :=
  let m := max s.h1 (max s.h2 s.h3)
  if m = s.h1 then (if s.h1 ≥ 25 then HLevel.H1 else fb)
  else if m = s.h2 then (if s.h2 ≥ 20 then HLevel.H2 else fb)
  else (if s.h3 ≥ 15 then HLevel.H3 else fb)

/-- The level the claim C1 predicts for a candidate. -/
def claimC1Level (fa : Main.FontAnalysis) (c : Main.Candidate) : HLevel :=
  claimC1Resolve (Main.classifyScores fa c)
    (Main.fallbackLevel (c.font_size / fa.body_font_size) c.is_bold
      (wordCount (stripChars c.text)))

/-- The resolution rule the code actually implements, spelled out without
`max`: the first level in the order `H1`, `H2`, `H3` whose score both
attains the maximum and meets its floor wins; only if no level qualifies
does the fallback fire. -/
def amendedC1Resolve (s : Main.ClassScores) (fb : HLevel) : HLevel :=
  if s.h1 ≥ s.h2 ∧ s.h1 ≥ s.h3 ∧ s.h1 ≥ 25 then HLevel.H1
  else if s.h2 ≥ s.h1 ∧ s.h2 ≥ s.h3 ∧ s.h2 ≥ 20 then HLevel.H2
  else if s.h3 ≥ s.h1 ∧ s.h3 ≥ s.h2 ∧ s.h3 ≥ 15 then HLevel.H3
  else fb

/-- The additive candidate score exactly as claim C2 states it (its
all-caps factor has no lower length bound, unlike the code's). -/
def claimC2Score (fa : Main.FontAnalysis) (b : Main.TextBlock) : ℚ :=
  let text := stripChars b.text
  let wc := wordCount text
  let r := b.font_size / fa.body_font_size
  min 40 ((r - 1) * 20) +
  (if b.is_bold then 20 else 0) +
  (if wc ≤ 8 then (20 : ℚ) - 2 * wc else 0) +
  (if b.position.y < 200 then 10 else 0) +
  (if ¬ endsWithSentencePunct text then 5 else 0) +
  (if isUpperStr text ∧ text.length < 50 then 10 else 0) +
  (if isDigitStr (removeSpaces (beforeFirstDot text)) then 8 else 0)

/-- Membership in the filter output as claim C2 states it: length
between 3 and 200, no noise marker, score at least 25 — and nothing
else. -/
def claimC2Survives (fa : Main.FontAnalysis) (b : Main.TextBlock) : Prop :=
  (3 ≤ (stripChars b.text).length ∧ (stripChars b.text).length ≤ 200) ∧
  containsAnySub Main.noiseMarkers (lowerStr (stripChars b.text)) = false ∧
  claimC2Score fa b ≥ 25

/-- Membership in the filter output as the code implements it: claim
C2's conditions plus the `is_potential_heading` size/boldness gate (and
the code's extra `len(text) > 3` condition inside the all-caps factor of
`headingScore`). -/
def amendedC2Survives (fa : Main.FontAnalysis) (b : Main.TextBlock) : Prop :=
  ¬ ((stripChars b.text).length < 3 ∨ (stripChars b.text).length > 200) ∧
  ¬ containsAnySub Main.noiseMarkers (lowerStr (stripChars b.text)) = true ∧
  Main.isPotentialHeading fa b ∧
  Main.headingScore fa b ≥ 25

/-- The §4.3 noise-marker list that claim C3 says the title selector
uses (the code's actual list instead contains `abstract` and
`introduction` and lacks `et al.` and `ibid`). -/
def claimTitleNoise : List (List Char) :=
  [("figure").toList, ("table").toList, ("page").toList, ("www.").toList,
   ("http").toList, ("@").toList, ("copyright").toList, ("©").toList,
   ("et al.").toList, ("ibid").toList]

/-- Survivor test of the title selector as claim C3 states it. -/
def claimTitleEligible (b : Main.TextBlock) : Prop :=
  let text := stripChars b.text
  ¬ (text.length < 5 ∨ text.length > 150) ∧
  ¬ containsAnySub claimTitleNoise (lowerStr text) = true

instance (b : Main.TextBlock) : Decidable (claimTitleEligible b) := by
  unfold claimTitleEligible; infer_instance

/-- Best-title fold step under claim C3's survivor test. -/
def claimTitleFoldStep (acc : List Char × ℚ) (b : Main.TextBlock) :
    List Char × ℚ :=
  if ¬ claimTitleEligible b then acc
  else if Main.titleScore b > acc.2 then (stripChars b.text, Main.titleScore b)
  else acc

/-- The title selector exactly as claim C3 describes it: the code's
selector with claim C3's noise list. -/
def claimC3Select (blocks : List Main.TextBlock) : List Char :=
  match blocks with
  | [] => ("Untitled Document").toList
  | _ =>
    match Main.titlePageBlocks blocks with
    | [] => ("Untitled Document").toList
    | _ =>
      let largest := Main.sizeQualifying blocks
      let best := largest.foldl claimTitleFoldStep ([], 0)
      let bestTitle :=
        if best.1 = [] then
          (match largest with
           | [] => ([] : List Char)
           | b :: _ => stripChars b.text)
        else best.1
      if bestTitle = [] then ("Untitled Document").toList else bestTitle

/-- The title-selector survivors (size-qualifying, length in bounds, no
marker of the code's rejection list). -/
def titleSurvivors (blocks : List Main.TextBlock) : List Main.TextBlock :=
  (Main.sizeQualifying blocks).filter (fun b => Main.titleEligible b)

/-- Neighbour adjustment of the hierarchy refiner with optional
neighbours: identity when either neighbour is missing. -/
def adjGen (prev : Option Main.Classified) (cur : Main.Classified)
    (next : Option Main.Classified) : Main.Classified :=
  match next with
  | some n => Main.adjustHeading prev cur n
  | none => cur

/-- Reading order on final headings: non-decreasing `(page, y)`. -/
def pageYLe (a b : Main.FinalHeading) : Prop :=
  a.page < b.page ∨ (a.page = b.page ∧ a.y ≤ b.y)

instance : DecidableRel pageYLe := by
  unfold pageYLe; infer_instance

/-! ## Concrete inputs for counterexamples and witnesses -/

/-- A four-word text matching no lexical, numbering, colon, caps or
institution signal of the classifier. -/
def tC1 : List Char := ("delta epsilon rho sigma").toList

def faC1 : Main.FontAnalysis := { body_font_size := 12, average := 12 }

/-- A candidate with font size 13.8 (ratio 1.15) near the page top. -/
def candC1 : Main.Candidate :=
  { text := tC1, font_size := 69/5, font_name := [], is_bold := false,
    page_number := 2, position := { x := 72, y := 100, width := 200, height := 14 },
    heading_score := 30 }

def tIntro : List Char := ("INTRO").toList

def faC2 : Main.FontAnalysis := { body_font_size := 12, average := 12 }

/-- A short all-caps span at body font size near the page top. -/
def bIntro : Main.TextBlock :=
  { text := tIntro, font_size := 12, font_name := [], is_bold := false,
    page_number := 1, position := { x := 72, y := 50, width := 100, height := 12 } }

def tS1 : List Char := ("references ibid section").toList

def tS2 : List Char := ("Another Candidate Title").toList

/-- Page-1 span containing the marker `ibid` of the claimed §4.3 list. -/
def bS1 : Main.TextBlock :=
  { text := tS1, font_size := 20, font_name := [], is_bold := false,
    page_number := 1, position := { x := 72, y := 50, width := 300, height := 20 } }

def bS2 : Main.TextBlock :=
  { text := tS2, font_size := 20, font_name := [], is_bold := false,
    page_number := 1, position := { x := 72, y := 500, width := 300, height := 20 } }

def ex3 : List Main.TextBlock := [bS1, bS2]

def bF14 : Main.TextBlock :=
  { text := ("alpha").toList, font_size := 14, font_name := [],
    is_bold := false, page_number := 1,
    position := { x := 72, y := 50, width := 100, height := 14 } }

def bF12 : Main.TextBlock :=
  { text := ("beta").toList, font_size := 12, font_name := [],
    is_bold := false, page_number := 1,
    position := { x := 72, y := 90, width := 100, height := 12 } }

/-- Two spans whose font sizes 14 and 12 are tied at one occurrence each. -/
def ex4 : List Main.TextBlock := [bF14, bF12]

/-- Witness population for the C4 mode characterisation: sizes
`[10, 14, 14, 10]` (a two-way tie at count 2, first occurrence 10). -/
def ex4w : List Main.TextBlock :=
  [{ bF14 with font_size := 10 }, bF14, bF14, { bF12 with font_size := 10 }]

/-- A classified heading with the given level, `h2`/`h3` sub-scores and
vertical position (the other fields are irrelevant to the refiner). -/
def mkCls (lv : HLevel) (h2 h3 : ℕ) (y : ℚ) (t : List Char) :
    Main.Classified :=
  { level := lv, text := t, page := 1,
    position := { x := 72, y := y, width := 100, height := 12 },
    font_size := 12, is_bold := false, heading_score := 30, size_ratio := 1,
    scores := { h1 := 0, h2 := h2, h3 := h3 }, final := 0 }

/-- Model of `H3, H1, H3, H2` with sub-scores enabling first a demotion and then
— through the refiner's in-place update of the previous neighbour — a
promotion whose input neighbours are `H1` and `H2`. -/
def ex5 : List Main.Classified :=
  [mkCls HLevel.H3 0 20 10 (("aa bb").toList),
   mkCls HLevel.H1 15 0 20 (("cc dd").toList),
   mkCls HLevel.H3 20 10 30 (("ee ff").toList),
   mkCls HLevel.H2 0 0 40 (("gg hh").toList)]

def tGrand6 : List Char := ("Grand Title").toList

def tEarly6 : List Char := ("Early Small").toList

def tLate6 : List Char := ("Large Late").toList

def tBody6 : List Char := ("just some plain body words here").toList

def mkCB (t : List Char) (sz : ℚ) (y : ℚ) : Core.CBlock :=
  { text := t, page := 0, font_size := sz, font_flags := 0,
    x0 := 72, y0 := y }

/-- Title block (size 24), an early small heading (y 50, size 16), a
late large heading (y 600, size 18) and three body blocks (size 12). -/
def ex6 : List Core.CBlock :=
  [mkCB tGrand6 24 30, mkCB tEarly6 16 50, mkCB tLate6 18 600,
   mkCB tBody6 12 100, mkCB tBody6 12 200, mkCB tBody6 12 300]

def tGrand7 : List Char := ("Annual Report Cover").toList

def tAlpha7 : List Char := ("Alpha Heading").toList

def tBeta7 : List Char := ("Beta Heading").toList

def tBody7 : List Char := ("more plain body words follow here").toList

def bAlpha7 : Core.CBlock := mkCB tAlpha7 16 40

def bBeta7 : Core.CBlock := mkCB tBeta7 18 600

/-- Same shape as `ex6`: the smaller heading comes first in reading
order (y 40 versus y 600) but the sort key `(page, -font_size)` puts the
larger one first. -/
def ex7 : List Core.CBlock :=
  [mkCB tGrand7 24 20, bAlpha7, bBeta7,
   mkCB tBody7 12 100, mkCB tBody7 12 200, mkCB tBody7 12 300]

/-- Witness spans for the amended C3 title characterisation. -/
def bW3a : Main.TextBlock :=
  { text := ("A Clean Document Title").toList, font_size := 22,
    font_name := [], is_bold := true, page_number := 1,
    position := { x := 72, y := 60, width := 300, height := 22 } }

def bW3b : Main.TextBlock :=
  { text := ("smaller body words").toList, font_size := 11,
    font_name := [], is_bold := false, page_number := 1,
    position := { x := 72, y := 300, width := 300, height := 11 } }

def ex3w : List Main.TextBlock := [bW3a, bW3b]

/-! ## Helper lemmas -/

/-- The neighbour adjustment either keeps a heading or re-levels it to
`H2`, leaving every other field unchanged. -/
theorem adjustHeading_cases (p : Option Main.Classified)
    (c n : Main.Classified) :
    Main.adjustHeading p c n = c ∨
      Main.adjustHeading p c n = { c with level := HLevel.H2 } := by
  unfold Main.adjustHeading
  cases p with
  | none => exact Or.inl rfl
  | some q =>
    simp only [Main.adjustHeading]
    split_ifs <;> first | exact Or.inl rfl | exact Or.inr rfl

theorem adjGen_cases (p : Option Main.Classified) (c : Main.Classified)
    (n : Option Main.Classified) :
    adjGen p c n = c ∨ adjGen p c n = { c with level := HLevel.H2 } := by
  unfold adjGen
  cases n with
  | none => exact Or.inl rfl
  | some m => exact adjustHeading_cases p c m

theorem refineAux_length (l : List Main.Classified) :
    ∀ p : Option Main.Classified, (Main.refineAux p l).length = l.length := by
  induction l with
  | nil => intro p; rfl
  | cons x rest ih =>
    intro p
    cases rest with
    | nil => rfl
    | cons y rest2 =>
      simp only [Main.refineAux, List.length_cons, ih]

/-- Index-wise characterisation of the refiner's forward pass: position
`i` is adjusted against the already-refined predecessor and the original
successor. -/
theorem refineAux_getElem (l : List Main.Classified) :
    ∀ (p : Option Main.Classified) (i : ℕ),
      (Main.refineAux p l)[i]? =
        (l[i]?).map (fun x =>
          adjGen (if i = 0 then p else (Main.refineAux p l)[i-1]?) x
            l[i+1]?) := by
  induction l with
  | nil => intro p i; simp [Main.refineAux]
  | cons x rest ih =>
    intro p i
    cases rest with
    | nil =>
      cases i with
      | zero => simp [Main.refineAux, adjGen]
      | succ j => simp [Main.refineAux]
    | cons y rest2 =>
      cases i with
      | zero =>
        simp [Main.refineAux, adjGen]
      | succ j =>
        have h := ih (some (Main.adjustHeading p x y)) j
        simp only [Main.refineAux, List.getElem?_cons_succ] at h ⊢
        rw [h]
        rcases j with _ | k
        · simp
        · simp

/-- Top-level version of `refineAux_getElem` for
`refineHeadingHierarchy`. -/
theorem refine_getElem (l : List Main.Classified) (i : ℕ) :
    (Main.refineHeadingHierarchy l)[i]? =
      (l[i]?).map (fun x =>
        adjGen (if i = 0 then none else (Main.refineHeadingHierarchy l)[i-1]?)
          x l[i+1]?) := by
  rcases l with _ | ⟨x, _ | ⟨y, rest⟩⟩
  · simp [Main.refineHeadingHierarchy]
  · cases i with
    | zero => simp [Main.refineHeadingHierarchy, adjGen]
    | succ j => simp [Main.refineHeadingHierarchy]
  · have h2 : ¬ (x :: y :: rest).length ≤ 1 := by simp
    unfold Main.refineHeadingHierarchy
    rw [if_neg h2]
    exact refineAux_getElem _ none i

/-! ## Claim C5 — hierarchy refiner neighbour rules -/

/-- C5 (counterexample): the claim says a heading is promoted from `H3`
to `H2` exactly when both of its neighbours in the classified list are
`H2`, and that levels change under no other condition.  In the input
below the third heading is `H3` with neighbours `H1` and `H2`, so the
claim predicts no change — but the code mutates the list in place, the
second heading is first demoted `H1 → H2`, and the third heading then
sees the already-updated `H2` predecessor and is promoted.  Corrections
do cascade beyond one hop. -/
theorem c5_counterexample :
    ex5.map (fun h => h.level) =
      [HLevel.H3, HLevel.H1, HLevel.H3, HLevel.H2] ∧
    (Main.refineHeadingHierarchy ex5).map (fun h => h.level) =
      [HLevel.H3, HLevel.H2, HLevel.H2, HLevel.H2] := by
  constructor
  · rfl
  · rfl

/-- C5 (amended): the refiner is a single forward pass, but over the
in-place-updated list: position `i` is adjusted against the
*already-refined* predecessor (position `i-1` of the output) and the
*original* successor (position `i+1` of the input); a heading is demoted
`H1 → H2` when those neighbours are both `H3` and its `h2` sub-score is
≥ 15, promoted `H3 → H2` when they are both `H2` and its `h2` sub-score
is ≥ its `h3` sub-score, and unchanged otherwise (`adjGen`); the pass is
not re-run to a fixed point. -/
theorem c5_refiner_sequential_pass (l : List Main.Classified) (i : ℕ) :
    (Main.refineHeadingHierarchy l)[i]? =
      (l[i]?).map (fun x =>
        adjGen (if i = 0 then none else (Main.refineHeadingHierarchy l)[i-1]?)
          x l[i+1]?) := by
  exact refine_getElem l i

/-! ## Claim C10 — hierarchy refiner frame property -/

/-- C10 (confirmed): the refiner preserves length and order; each output
heading is the input heading at the same position, either unchanged or
with only its level reassigned to `H2` (text, page, position and
classification scores are never touched, and no heading is ever
reassigned to `H1` or `H3`). -/
theorem c10_refiner_frame (l : List Main.Classified) :
    (Main.refineHeadingHierarchy l).length = l.length ∧
    ∀ i : ℕ,
      (Main.refineHeadingHierarchy l)[i]? = l[i]? ∨
      ∃ o, l[i]? = some o ∧
        (Main.refineHeadingHierarchy l)[i]? =
          some { o with level := HLevel.H2 } := by
  constructor
  · unfold Main.refineHeadingHierarchy
    by_cases h : l.length ≤ 1
    · rw [if_pos h]
    · rw [if_neg h]; exact refineAux_length l none
  · intro i
    rw [refine_getElem l i]
    cases hx : l[i]? with
    | none => exact Or.inl rfl
    | some x =>
      rcases adjGen_cases
          (if i = 0 then none else (Main.refineHeadingHierarchy l)[i-1]?) x
          l[i+1]? with hh | hh
      · exact Or.inl (by simp [hh])
      · exact Or.inr ⟨x, rfl, by simp [hh]⟩

/-! ## Claim C8 — empty input -/

/-- C8 (counterexample): on empty input the script pipeline's
`_extract_headings_from_blocks` returns an *empty* title string, not the
literal `"Untitled Document"` the claim promises (the
`_identify_document_title` fallback is bypassed by the early empty
guard). -/
theorem c8_counterexample :
    (Main.extractHeadingsFromBlocks []).title = [] ∧
    (Main.extractHeadingsFromBlocks []).headings = [] ∧
    ([] : List Char) ≠ ("Untitled Document").toList := by
  refine ⟨rfl, rfl, ?_⟩
  decide

/-- C8 (amended): neither pipeline fails on empty input and both return
an empty heading list; the module pipeline (`_identify_headings`)
returns the title `"Untitled Document"`, while the script pipeline
(`_extract_headings_from_blocks`) returns the empty title string. -/
theorem c8_empty_input (m : ℕ) :
    Main.extractHeadingsFromBlocks [] = { title := [], headings := [] } ∧
    Core.identifyHeadings m [] = (("Untitled Document").toList, []) := by
  exact ⟨rfl, rfl⟩

/-! ## Claim C1 — level-classifier resolution -/

theorem cStrip : stripChars tC1 = tC1 := by decide

theorem cLower : lowerStr tC1 = tC1 := by decide

theorem cWc : wordCount tC1 = 4 := by decide

theorem cHits1 : Main.patternHits Main.h1Patterns tC1 = 0 := by decide

theorem cHits2 : Main.patternHits Main.h2Patterns tC1 = 0 := by decide

theorem cHits3 : Main.patternHits Main.h3Patterns tC1 = 0 := by decide

theorem cUpper : isUpperStr tC1 = false := by decide

theorem cNumA : matchNumDotSpace tC1 = false := by decide

theorem cNumB : matchNumNumSpace tC1 = false := by decide

theorem cNumC : matchLetterMarkSpace tC1 = false := by decide

theorem cNumD : matchRomanSpace tC1 = false := by decide

theorem cColon : containsSub ([':']) tC1 = false := by decide

theorem cEndColon : endsWithColon tC1 = false := by decide

theorem cInst : containsAnySub Main.titleIndicators tC1 = false := by decide

/-- Accumulated scores of the C1 candidate: position `y = 100` gives
`h1 += 20`; four words give `h2 += 10, h3 += 10`; size ratio 1.15 gives
`h2 += 10, h3 += 10`; no other signal fires — a three-way tie at 20. -/
theorem c1_scores : Main.classifyScores faC1 candC1 =
    { h1 := 20, h2 := 20, h3 := 20 } := by
  simp only [Main.classifyScores, candC1, faC1]
  norm_num [cStrip, cLower, cWc, cHits1, cHits2, cHits3, cUpper, cNumA,
    cNumB, cNumC, cNumD, cColon, cEndColon, cInst]

/-- The code's resolution chain, rewritten without `max`: the first
level in the order `H1`, `H2`, `H3` whose score both attains the maximum
and meets its floor is chosen; otherwise the fallback fires. -/
theorem resolveLevel_eq_amended (s : Main.ClassScores) (fb : HLevel) :
    Main.resolveLevel s fb = amendedC1Resolve s fb := by
  unfold Main.resolveLevel amendedC1Resolve
  by_cases g1 : s.h1 ≥ s.h2 ∧ s.h1 ≥ s.h3 ∧ s.h1 ≥ 25
  · have f1 : max s.h1 (max s.h2 s.h3) = s.h1 ∧ s.h1 ≥ 25 := by omega
    rw [if_pos f1, if_pos g1]
  · by_cases g2 : s.h2 ≥ s.h1 ∧ s.h2 ≥ s.h3 ∧ s.h2 ≥ 20
    · have f1 : ¬ (max s.h1 (max s.h2 s.h3) = s.h1 ∧ s.h1 ≥ 25) := by omega
      have f2 : max s.h1 (max s.h2 s.h3) = s.h2 ∧ s.h2 ≥ 20 := by omega
      rw [if_neg f1, if_pos f2, if_neg g1, if_pos g2]
    · by_cases g3 : s.h3 ≥ s.h1 ∧ s.h3 ≥ s.h2 ∧ s.h3 ≥ 15
      · have f1 : ¬ (max s.h1 (max s.h2 s.h3) = s.h1 ∧ s.h1 ≥ 25) := by omega
        have f2 : ¬ (max s.h1 (max s.h2 s.h3) = s.h2 ∧ s.h2 ≥ 20) := by omega
        have f3 : max s.h1 (max s.h2 s.h3) = s.h3 ∧ s.h3 ≥ 15 := by omega
        rw [if_neg f1, if_neg f2, if_pos f3, if_neg g1, if_neg g2, if_pos g3]
      · have f1 : ¬ (max s.h1 (max s.h2 s.h3) = s.h1 ∧ s.h1 ≥ 25) := by omega
        have f2 : ¬ (max s.h1 (max s.h2 s.h3) = s.h2 ∧ s.h2 ≥ 20) := by omega
        have f3 : ¬ (max s.h1 (max s.h2 s.h3) = s.h3 ∧ s.h3 ≥ 15) := by omega
        rw [if_neg f1, if_neg f2, if_neg f3, if_neg g1, if_neg g2, if_neg g3]

/-- C1 (counterexample): on a candidate whose three scores tie at 20,
the claim's rule elects `H1` by priority, finds `20 < 25`, and falls
back (size ratio 1.15, not bold → `H3`); the code instead continues down
its chain and accepts `H2` because `h2 = 20` both attains the maximum
and meets the `H2` floor. -/
theorem c1_counterexample :
    (Main.classifyOne faC1 candC1).level = HLevel.H2 ∧
    claimC1Level faC1 candC1 = HLevel.H3 ∧
    HLevel.H2 ≠ HLevel.H3 := by
  refine ⟨?_, ?_, by decide⟩
  · show Main.resolveLevel (Main.classifyScores faC1 candC1) _ = HLevel.H2
    rw [c1_scores]
    decide
  · unfold claimC1Level
    rw [c1_scores]
    norm_num [claimC1Resolve, Main.fallbackLevel, candC1, faC1, cStrip, cWc]

/-- C1 (amended): the assigned level is the first level in the order
`H1`, `H2`, `H3` whose accumulated score both attains the maximum of the
three scores and meets its per-level floor (25/20/15); only when no
level qualifies does the size/boldness fallback fire (`size_ratio ≥ 1.5`
or bold with ≤ 2 words → `H1`; `size_ratio ≥ 1.2` or bold with ≤ 4 words
→ `H2`; else `H3`).  In particular ties at the maximum are resolved in
favour of the highest-priority level *among those meeting their
floors*. -/
theorem c1_classifier_resolution (fa : Main.FontAnalysis)
    (c : Main.Candidate) :
    (Main.classifyOne fa c).level =
      amendedC1Resolve (Main.classifyOne fa c).scores
        (Main.fallbackLevel (c.font_size / fa.body_font_size) c.is_bold
          (wordCount (stripChars c.text))) := by
  show Main.resolveLevel _ _ = _
  exact resolveLevel_eq_amended _ _

/-! ## Claim C4 — font profiler body size -/

/-- Invariant of the first-mode fold: if the accumulator is the best
(maximal count, earliest first occurrence on ties) among a processed
prefix of `l`, the fold result is the best of all of `l`. -/
theorem firstModeAux_invariant (l : List ℚ) (rest : List ℚ) :
    ∀ (processed : List ℚ) (b : ℚ),
      l = processed ++ rest →
      b ∈ processed →
      (∀ p ∈ processed, l.count p ≤ l.count b) →
      (∀ p ∈ processed, l.count p = l.count b →
        l.indexOf b ≤ l.indexOf p) →
      firstModeAux l b rest ∈ l ∧
      (∀ p ∈ l, l.count p ≤ l.count (firstModeAux l b rest)) ∧
      (∀ p ∈ l, l.count p = l.count (firstModeAux l b rest) →
        l.indexOf (firstModeAux l b rest) ≤ l.indexOf p) := by
  induction rest with
  | nil =>
    intro processed b hl hb hcnt hidx
    rw [List.append_nil] at hl
    subst hl
    exact ⟨hb, hcnt, hidx⟩
  | cons x rest ih =>
    intro processed b hl hb hcnt hidx
    have hstep : firstModeAux l b (x :: rest) =
        firstModeAux l (if l.count x > l.count b then x else b) rest := rfl
    rw [hstep]
    have hl2 : l = (processed ++ [x]) ++ rest := by
      rw [hl, List.append_assoc]; rfl
    by_cases hcase : l.count x > l.count b
    · rw [if_pos hcase]
      refine ih (processed ++ [x]) x hl2 (by simp) ?_ ?_
      · intro p hp
        rcases List.mem_append.1 hp with hp1 | hp2
        · have := hcnt p hp1; omega
        · simp at hp2; subst hp2; exact le_refl _
      · intro p hp hpc
        rcases List.mem_append.1 hp with hp1 | hp2
        · have := hcnt p hp1; omega
        · simp at hp2; subst hp2; exact le_refl _
    · rw [if_neg hcase]
      refine ih (processed ++ [x]) b hl2 (List.mem_append_left _ hb) ?_ ?_
      · intro p hp
        rcases List.mem_append.1 hp with hp1 | hp2
        · exact hcnt p hp1
        · simp at hp2; subst hp2; omega
      · intro p hp hpc
        rcases List.mem_append.1 hp with hp1 | hp2
        · exact hidx p hp1 hpc
        · simp at hp2
          subst hp2
          by_cases hxp : p ∈ processed
          · exact hidx p hxp hpc
          · have hib : l.indexOf b < processed.length := by
              rw [hl, List.indexOf_append_of_mem hb]
              calc List.indexOf b processed < processed.length :=
                List.indexOf_lt_length.2 hb
              _ ≤ processed.length := le_refl _
            have hip : l.indexOf p = processed.length := by
              rw [hl, List.indexOf_append_of_not_mem hxp]
              simp [List.indexOf_cons_self]
            omega

/-- C4 (counterexample): on two spans with font sizes 14 and 12 — tied
at one occurrence each — the profiler returns 14, the *first-seen* size,
not the smallest tied size 12 that the claim promises
(`Counter.most_common(1)` and `max(counts, key=counts.get)` both break
ties by insertion order, not by value). -/
theorem c4_counterexample :
    (Main.analyzeFontStyles ex4).body_font_size = 14 ∧
    (ex4.map (fun b => b.font_size)).count 14 =
      (ex4.map (fun b => b.font_size)).count 12 ∧
    (12 : ℚ) < 14 := by
  refine ⟨?_, ?_, by norm_num⟩
  · simp only [Main.analyzeFontStyles, ex4, bF14, bF12, List.map_cons,
      List.map_nil, Main.mostCommonSize, firstModeAux, List.foldl_cons,
      List.foldl_nil]
    norm_num [List.count_cons, List.count_nil]
  · simp only [ex4, bF14, bF12, List.map_cons, List.map_nil]
    norm_num [List.count_cons, List.count_nil]

/-- C4 (amended): on empty input the profiler returns the default body
size 12.0 without failing; on non-empty input `body_size` is a font size
of maximal multiplicity, and ties between equally frequent sizes are
broken in favour of the size whose *first occurrence comes earliest* in
span order (not the smallest size value). -/
theorem c4_body_size_mode (blocks : List Main.TextBlock)
    (hne : blocks ≠ []) :
    (Main.analyzeFontStyles []).body_font_size = 12 ∧
    (Main.analyzeFontStyles blocks).body_font_size ∈
      blocks.map (fun b => b.font_size) ∧
    (∀ s ∈ blocks.map (fun b => b.font_size),
      (blocks.map (fun b => b.font_size)).count s ≤
        (blocks.map (fun b => b.font_size)).count
          ((Main.analyzeFontStyles blocks).body_font_size)) ∧
    (∀ s ∈ blocks.map (fun b => b.font_size),
      (blocks.map (fun b => b.font_size)).count s =
        (blocks.map (fun b => b.font_size)).count
          ((Main.analyzeFontStyles blocks).body_font_size) →
      (blocks.map (fun b => b.font_size)).indexOf
          ((Main.analyzeFontStyles blocks).body_font_size) ≤
        (blocks.map (fun b => b.font_size)).indexOf s) := by
  refine ⟨rfl, ?_⟩
  obtain ⟨bb, bs, rfl⟩ : ∃ bb bs, blocks = bb :: bs := by
    cases blocks with
    | nil => exact absurd rfl hne
    | cons a l => exact ⟨a, l, rfl⟩
  have h := firstModeAux_invariant
    (bb.font_size :: bs.map (fun b => b.font_size))
    (bs.map (fun b => b.font_size)) [bb.font_size] bb.font_size (by simp)
    (by simp) (by intro p hp; simp at hp; simp [hp])
    (by intro p hp hc; simp at hp; simp [hp])
  have hm : (Main.analyzeFontStyles (bb :: bs)).body_font_size =
      firstModeAux (bb.font_size :: bs.map (fun b => b.font_size))
        bb.font_size (bs.map (fun b => b.font_size)) := rfl
  simp only [List.map_cons, hm]
  exact h

/-- Witness for `c4_body_size_mode` at the population
`[10, 14, 14, 10]`. -/
theorem c4_body_size_mode_witness :
    ex4w ≠ [] ∧
    ((Main.analyzeFontStyles []).body_font_size = 12 ∧
    (Main.analyzeFontStyles ex4w).body_font_size ∈
      ex4w.map (fun b => b.font_size) ∧
    (∀ s ∈ ex4w.map (fun b => b.font_size),
      (ex4w.map (fun b => b.font_size)).count s ≤
        (ex4w.map (fun b => b.font_size)).count
          ((Main.analyzeFontStyles ex4w).body_font_size)) ∧
    (∀ s ∈ ex4w.map (fun b => b.font_size),
      (ex4w.map (fun b => b.font_size)).count s =
        (ex4w.map (fun b => b.font_size)).count
          ((Main.analyzeFontStyles ex4w).body_font_size) →
      (ex4w.map (fun b => b.font_size)).indexOf
          ((Main.analyzeFontStyles ex4w).body_font_size) ≤
        (ex4w.map (fun b => b.font_size)).indexOf s)) :=
  ⟨by simp [ex4w], c4_body_size_mode ex4w (by simp [ex4w])⟩

/-! ## Claim C2 — candidate filter -/

/-- The per-block filter body succeeds exactly on blocks passing the
length bounds, the noise rejection, the `is_potential_heading` gate and
the score threshold, and then yields the block copy with its rounded
score. -/
theorem candidateOf_eq_some (fa : Main.FontAnalysis) (b : Main.TextBlock)
    (c : Main.Candidate) :
    Main.candidateOf fa b = some c ↔
      amendedC2Survives fa b ∧
        c = { b with heading_score := pyRound2 (Main.headingScore fa b) } := by
  unfold Main.candidateOf amendedC2Survives
  dsimp only
  split_ifs with h1 h2 h3 h4
  all_goals try simp_all
  all_goals
    exact ⟨fun h => h.symm, fun h => h.symm⟩

/-- C2 (amended): a candidate is in the filter output iff it is the
scored copy of an input span whose stripped text has length between 3
and 200, contains no noise marker, passes the `is_potential_heading`
size/boldness gate — `font_size > max(1.1·body, 1.05·avg)`, or bold with
`font_size ≥ 0.9·body`, or `font_size > 1.3·avg` — and whose additive
score is at least 25 (where, in addition, the all-caps factor requires
text length strictly greater than 3). -/
theorem c2_filter_membership (blocks : List Main.TextBlock)
    (fa : Main.FontAnalysis) (c : Main.Candidate) :
    c ∈ Main.filterHeadingCandidates blocks fa ↔
      ∃ b, b ∈ blocks ∧ amendedC2Survives fa b ∧
        c = { b with heading_score := pyRound2 (Main.headingScore fa b) } := by
  unfold Main.filterHeadingCandidates
  rw [(List.perm_insertionSort Main.blockLe _).mem_iff, List.mem_filterMap]
  constructor
  · rintro ⟨b, hb, hsome⟩
    obtain ⟨hs, hc⟩ := (candidateOf_eq_some fa b c).1 hsome
    exact ⟨b, hb, hs, hc⟩
  · rintro ⟨b, hb, hs, hc⟩
    exact ⟨b, hb, (candidateOf_eq_some fa b c).2 ⟨hs, hc⟩⟩

theorem cIntroStrip : stripChars tIntro = tIntro := by decide

theorem cIntroLen : tIntro.length = 5 := by decide

theorem cIntroLower : lowerStr tIntro = ("intro").toList := by decide

theorem cIntroWc : wordCount tIntro = 1 := by decide

theorem cIntroUpper : isUpperStr tIntro = true := by decide

theorem cIntroPunct : endsWithSentencePunct tIntro = false := by decide

theorem cIntroDigit :
    isDigitStr (removeSpaces (beforeFirstDot tIntro)) = false := by decide

theorem cIntroNoise :
    containsAnySub Main.noiseMarkers (lowerStr tIntro) = false := by decide

/-- C2 (counterexample): the span `"INTRO"` at body font size (ratio
1.0, not bold) satisfies every condition the claim lists — length 5, no
noise marker, additive score 43 ≥ 25 — yet the filter output is empty,
because the un-stated `is_potential_heading` precondition (a pure
font-size/boldness gate) excludes the span before scoring. -/
theorem c2_counterexample :
    Main.filterHeadingCandidates [bIntro] faC2 = [] ∧
    claimC2Survives faC2 bIntro := by
  constructor
  · have hnone : Main.candidateOf faC2 bIntro = none := by
      unfold Main.candidateOf Main.isPotentialHeading Main.sizeThreshold
      simp only [bIntro, faC2, cIntroStrip, cIntroNoise, cIntroLen]
      norm_num [max_def]
    simp [Main.filterHeadingCandidates, hnone]
  · unfold claimC2Survives claimC2Score
    simp only [bIntro, faC2, cIntroStrip, cIntroNoise, cIntroWc,
      cIntroUpper, cIntroPunct, cIntroDigit, cIntroLen]
    norm_num

/-! ## Claim C3 — title selector -/

/-- The best-title fold never decreases the best score. -/
theorem titleFold_snd_mono (l : List Main.TextBlock) :
    ∀ acc : List Char × ℚ, acc.2 ≤ (l.foldl Main.titleFoldStep acc).2 := by
  induction l with
  | nil => intro acc; exact le_refl _
  | cons b l ih =>
    intro acc
    refine le_trans ?_ (ih (Main.titleFoldStep acc b))
    unfold Main.titleFoldStep
    split_ifs with h1 h2
    all_goals first | exact le_refl _ | exact le_of_lt h2

/-- Every eligible block's score is bounded by the final best score. -/
theorem titleFold_ge_of_mem (l : List Main.TextBlock) :
    ∀ (acc : List Char × ℚ) (b : Main.TextBlock), b ∈ l →
      Main.titleEligible b →
      Main.titleScore b ≤ (l.foldl Main.titleFoldStep acc).2 := by
  induction l with
  | nil => intro acc b hb; cases hb
  | cons x l ih =>
    intro acc b hb he
    rw [List.foldl_cons]
    rcases List.mem_cons.1 hb with rfl | hb2
    · refine le_trans ?_ (titleFold_snd_mono l (Main.titleFoldStep acc b))
      unfold Main.titleFoldStep
      rw [if_neg (not_not_intro he)]
      split_ifs with h
      · exact le_refl _
      · exact le_of_not_lt h
    · exact ih (Main.titleFoldStep acc x) b hb2 he

/-- The best-title fold either keeps its accumulator or returns the
stripped text and score of some eligible block of the list. -/
theorem titleFold_result (l : List Main.TextBlock) :
    ∀ acc : List Char × ℚ,
      l.foldl Main.titleFoldStep acc = acc ∨
      ∃ b ∈ l, Main.titleEligible b ∧
        l.foldl Main.titleFoldStep acc =
          (stripChars b.text, Main.titleScore b) := by
  induction l with
  | nil => intro acc; exact Or.inl rfl
  | cons x l ih =>
    intro acc
    rw [List.foldl_cons]
    have hstep : Main.titleFoldStep acc x = acc ∨
        (Main.titleEligible x ∧
          Main.titleFoldStep acc x =
            (stripChars x.text, Main.titleScore x)) := by
      unfold Main.titleFoldStep
      split_ifs with h1 h2
      all_goals first
        | exact Or.inl rfl
        | exact Or.inr ⟨h1, rfl⟩
    rcases hstep with h | ⟨he, h⟩
    · rw [h]
      rcases ih acc with h2 | ⟨b, hb, he2, heq⟩
      · exact Or.inl h2
      · exact Or.inr ⟨b, List.mem_cons_of_mem _ hb, he2, heq⟩
    · rw [h]
      rcases ih (stripChars x.text, Main.titleScore x) with h2 | ⟨b, hb, he2, heq⟩
      · exact Or.inr ⟨x, List.mem_cons_self _ _, he, h2⟩
      · exact Or.inr ⟨b, List.mem_cons_of_mem _ hb, he2, heq⟩

/-- An eligible title block on page 1 or 2 with non-negative font size
scores strictly positively (the page bonus alone is ≥ 10). -/
theorem titleScore_pos (b : Main.TextBlock) (hs : 0 ≤ b.font_size)
    (hp1 : 1 ≤ b.page_number) (hp2 : b.page_number ≤ 2) :
    0 < Main.titleScore b := by
  unfold Main.titleScore
  dsimp only
  have hA : (0 : ℚ) ≤ min 40 (b.font_size * 2) :=
    le_min (by norm_num) (by linarith)
  have hB : (0 : ℚ) ≤ (if b.is_bold then (20 : ℚ) else 0) := by
    split_ifs <;> norm_num
  have hC : (10 : ℚ) ≤
      (if b.page_number = 1 then (20 : ℚ)
       else if b.page_number = 2 then 10 else 0) := by
    have hp : b.page_number = 1 ∨ b.page_number = 2 := by omega
    rcases hp with h | h <;> simp [h]
    norm_num
  have hD : (0 : ℚ) ≤
      (if b.position.y < 200 then (15 : ℚ)
       else if b.position.y < 400 then 10 else 0) := by
    split_ifs <;> norm_num
  have hE : (0 : ℚ) ≤
      (if 2 ≤ wordCount (stripChars b.text) ∧
          wordCount (stripChars b.text) ≤ 12 then
        (15 : ℚ) - |(wordCount (stripChars b.text) : ℚ) - 6| else 0) := by
    split_ifs with h
    · have h1 : (2 : ℚ) ≤ (wordCount (stripChars b.text) : ℚ) := by
        exact_mod_cast h.1
      have h2 : (wordCount (stripChars b.text) : ℚ) ≤ 12 := by
        exact_mod_cast h.2
      have habs : |(wordCount (stripChars b.text) : ℚ) - 6| ≤ 6 :=
        abs_le.2 ⟨by linarith, by linarith⟩
      linarith
    · exact le_refl _
  have hF : (0 : ℚ) ≤
      (if ¬ (stripChars b.text).reverse.take 1 = ['.'] ∧
          ¬ ("Fig").toList.isPrefixOf (stripChars b.text) ∧
          ¬ ("Table").toList.isPrefixOf (stripChars b.text)
       then (10 : ℚ) else 0) := by
    split_ifs <;> norm_num
  linarith

/-- An eligible block's stripped text is non-empty (its length is at
least 5). -/
theorem titleEligible_text_ne_nil (b : Main.TextBlock)
    (he : Main.titleEligible b) : stripChars b.text ≠ [] := by
  obtain ⟨hlen, _⟩ := he
  intro hnil
  rw [hnil] at hlen
  simp at hlen

/-- C3 (amended): the title selector considers only spans of pages 1–2
within 95% of their maximum font size; among them it rejects texts of
stripped length < 5 or > 150 or containing a marker of the code's
rejection list — `page, figure, table, abstract, introduction, www.,
http, @, copyright, ©` (*not* the §4.3 list: `abstract` and
`introduction` are rejected in addition, `et al.` and `ibid` are not
rejected) — and returns the stripped text of a maximal-score survivor;
with no survivor it falls back to the first size-qualifying span's
stripped text, and with no page-1–2 span at all (or an empty fallback
text) it returns `"Untitled Document"`. -/
theorem c3_title_selection (blocks : List Main.TextBlock)
    (hsz : ∀ b ∈ blocks, 0 ≤ b.font_size)
    (hpg : ∀ b ∈ blocks, 1 ≤ b.page_number) :
    (Main.titlePageBlocks blocks = [] →
      Main.identifyDocumentTitle blocks = ("Untitled Document").toList) ∧
    (titleSurvivors blocks ≠ [] →
      ∃ b ∈ titleSurvivors blocks,
        Main.identifyDocumentTitle blocks = stripChars b.text ∧
        ∀ b2 ∈ titleSurvivors blocks,
          Main.titleScore b2 ≤ Main.titleScore b) ∧
    (titleSurvivors blocks = [] → ∀ b bs,
      Main.sizeQualifying blocks = b :: bs →
      Main.identifyDocumentTitle blocks =
        (if stripChars b.text = [] then ("Untitled Document").toList
         else stripChars b.text)) := by
  cases blocks with
  | nil =>
    refine ⟨fun _ => rfl, fun hne => absurd rfl hne, fun _ b bs hq => ?_⟩
    simp [Main.sizeQualifying, Main.titlePageBlocks] at hq
  | cons x bs0 =>
    have hsurv : ∀ b, b ∈ titleSurvivors (x :: bs0) ↔
        b ∈ Main.sizeQualifying (x :: bs0) ∧ Main.titleEligible b := by
      intro b
      unfold titleSurvivors
      rw [List.mem_filter]
      simp
    have hmemblocks : ∀ b, b ∈ Main.sizeQualifying (x :: bs0) →
        b ∈ (x :: bs0) ∧ b.page_number ≤ 2 := by
      intro b hb
      have h1 := (List.mem_filter.1 hb).1
      have h2 := List.mem_filter.1 h1
      refine ⟨h2.1, ?_⟩
      have := h2.2
      simpa using this
    cases htp : Main.titlePageBlocks (x :: bs0) with
    | nil =>
      have hq0 : Main.sizeQualifying (x :: bs0) = [] := by
        unfold Main.sizeQualifying
        rw [htp]
        rfl
      have hs0 : titleSurvivors (x :: bs0) = [] := by
        unfold titleSurvivors
        rw [hq0]
        rfl
      have hres : Main.identifyDocumentTitle (x :: bs0) =
          ("Untitled Document").toList := by
        unfold Main.identifyDocumentTitle
        rw [htp]
      exact ⟨fun _ => hres, fun hne => absurd hs0 hne,
        fun _ b bs hq => by rw [hq0] at hq; cases hq⟩
    | cons t ts =>
      have hid : Main.identifyDocumentTitle (x :: bs0) =
          (let largest := Main.sizeQualifying (x :: bs0)
           let best := largest.foldl Main.titleFoldStep ([], 0)
           let bestTitle :=
             if best.1 = [] then
               (match largest with
                | [] => ([] : List Char)
                | b :: _ => stripChars b.text)
             else best.1
           if bestTitle = [] then ("Untitled Document").toList
           else bestTitle) := by
        unfold Main.identifyDocumentTitle
        rw [htp]
      refine ⟨fun hcontra =>
        absurd hcontra (List.cons_ne_nil t ts), ?_, ?_⟩
      · intro hne
        obtain ⟨s0, hs0⟩ := List.exists_mem_of_ne_nil _ hne
        obtain ⟨hs0q, hs0e⟩ := (hsurv s0).1 hs0
        obtain ⟨hs0b, hs0p⟩ := hmemblocks s0 hs0q
        have hpos : 0 < Main.titleScore s0 :=
          titleScore_pos s0 (hsz s0 hs0b) (hpg s0 hs0b) hs0p
        have hle := titleFold_ge_of_mem (Main.sizeQualifying (x :: bs0))
          ([], 0) s0 hs0q hs0e
        rcases titleFold_result (Main.sizeQualifying (x :: bs0)) ([], 0)
          with hfr | ⟨b, hbL, hbe, heq⟩
        · rw [hfr] at hle
          exact absurd hle (by simpa using hpos)
        · refine ⟨b, (hsurv b).2 ⟨hbL, hbe⟩, ?_, ?_⟩
          · rw [hid]
            dsimp only
            rw [heq]
            have hne2 : stripChars b.text ≠ [] :=
              titleEligible_text_ne_nil b hbe
            rw [if_neg hne2, if_neg hne2]
          · intro b2 hb2
            obtain ⟨hb2q, hb2e⟩ := (hsurv b2).1 hb2
            have h := titleFold_ge_of_mem (Main.sizeQualifying (x :: bs0))
              ([], 0) b2 hb2q hb2e
            rw [heq] at h
            exact h
      · intro hsv b bs hq
        have hniel : ∀ y ∈ Main.sizeQualifying (x :: bs0),
            ¬ Main.titleEligible y := by
          intro y hy hye
          have hmem : y ∈ titleSurvivors (x :: bs0) := (hsurv y).2 ⟨hy, hye⟩
          rw [hsv] at hmem
          cases hmem
        have hfold : (Main.sizeQualifying (x :: bs0)).foldl
            Main.titleFoldStep ([], 0) = ([], 0) := by
          rcases titleFold_result (Main.sizeQualifying (x :: bs0)) ([], 0)
            with h | ⟨y, hy, hye, _⟩
          · exact h
          · exact absurd hye (hniel y hy)
        rw [hid]
        dsimp only
        rw [hfold, hq]
        simp

theorem d3strip1 : stripChars bS1.text = tS1 := by decide

theorem d3stripT1 : stripChars tS1 = tS1 := by decide

theorem d3stripT2 : stripChars tS2 = tS2 := by decide

theorem d3strip2 : stripChars bS2.text = tS2 := by decide

theorem d3elig1 : Main.titleEligible bS1 := by decide

theorem d3elig2 : Main.titleEligible bS2 := by decide

theorem d3claimNe1 : ¬ claimTitleEligible bS1 := by decide

theorem d3claim2 : claimTitleEligible bS2 := by decide

theorem d3wc1 : wordCount tS1 = 3 := by decide

theorem d3wc2 : wordCount tS2 = 3 := by decide

theorem d3last1 : ¬ (stripChars bS1.text).reverse.take 1 = ['.'] ∧
    ¬ ("Fig").toList.isPrefixOf (stripChars bS1.text) = true ∧
    ¬ ("Table").toList.isPrefixOf (stripChars bS1.text) = true := by decide

theorem d3last2 : ¬ (stripChars bS2.text).reverse.take 1 = ['.'] ∧
    ¬ ("Fig").toList.isPrefixOf (stripChars bS2.text) = true ∧
    ¬ ("Table").toList.isPrefixOf (stripChars bS2.text) = true := by decide

theorem d3score1 : Main.titleScore bS1 = 97 := by
  unfold Main.titleScore
  dsimp only
  rw [if_pos d3last1]
  simp only [d3strip1, d3stripT1, d3wc1, bS1]
  norm_num

theorem d3score2 : Main.titleScore bS2 = 82 := by
  unfold Main.titleScore
  dsimp only
  rw [if_pos d3last2]
  simp only [d3strip2, d3stripT2, d3wc2, bS2]
  norm_num

theorem hTPl : Main.titlePageBlocks [bS1, bS2] = bS1 :: [bS2] := by
  simp [Main.titlePageBlocks, bS1, bS2]

theorem hSQl : Main.sizeQualifying [bS1, bS2] = [bS1, bS2] := by
  unfold Main.sizeQualifying
  rw [hTPl]
  norm_num [Main.maxQ, bS1, bS2, List.filter_cons, decide_eq_true_eq]

theorem hstep1 : Main.titleFoldStep ([], 0) bS1 = (tS1, 97) := by
  unfold Main.titleFoldStep
  rw [if_neg (not_not_intro d3elig1), if_pos (by rw [d3score1]; norm_num),
    d3score1, d3strip1]

theorem hstep2 : Main.titleFoldStep (tS1, 97) bS2 = (tS1, 97) := by
  unfold Main.titleFoldStep
  rw [if_neg (not_not_intro d3elig2), if_neg (by rw [d3score2]; norm_num)]

theorem hcstep1 : claimTitleFoldStep ([], 0) bS1 = ([], 0) := by
  unfold claimTitleFoldStep
  rw [if_pos d3claimNe1]

theorem hcstep2 : claimTitleFoldStep ([], 0) bS2 = (tS2, 82) := by
  unfold claimTitleFoldStep
  rw [if_neg (not_not_intro d3claim2), if_pos (by rw [d3score2]; norm_num),
    d3score2, d3strip2]

/-- C3 (counterexample): on two page-1 spans of equal font size — `
"references ibid section"` (early, scoring 97) and
`"Another Candidate Title"` (lower on the page, scoring 82) — the code
returns the first text even though it contains the §4.3 noise marker
`ibid`; the selector described by the claim rejects it and returns the
second text.  The code's rejection list simply does not contain `ibid`
(nor `et al.`), while it does reject `abstract` and `introduction`. -/
theorem c3_counterexample :
    Main.identifyDocumentTitle ex3 = tS1 ∧
    claimC3Select ex3 = tS2 ∧
    containsSub (("ibid").toList) (lowerStr tS1) = true ∧
    tS1 ≠ tS2 := by
  have htne1 : ¬ tS1 = ([] : List Char) := by decide
  have htne2 : ¬ tS2 = ([] : List Char) := by decide
  refine ⟨?_, ?_, by decide, by decide⟩
  · unfold Main.identifyDocumentTitle
    simp only [ex3]
    rw [hTPl]
    dsimp only
    rw [hSQl, List.foldl_cons, hstep1, List.foldl_cons, hstep2,
      List.foldl_nil]
    dsimp only
    rw [if_neg htne1, if_neg htne1]
  · unfold claimC3Select
    simp only [ex3]
    rw [hTPl]
    dsimp only
    rw [hSQl, List.foldl_cons, hcstep1, List.foldl_cons, hcstep2,
      List.foldl_nil]
    dsimp only
    rw [if_neg htne2, if_neg htne2]

/-- Witness for `c3_title_selection` at a two-span input with one clean
survivor. -/
theorem c3_title_selection_witness :
    (∀ b ∈ ex3w, 0 ≤ b.font_size) ∧ (∀ b ∈ ex3w, 1 ≤ b.page_number) ∧
    ((Main.titlePageBlocks ex3w = [] →
      Main.identifyDocumentTitle ex3w = ("Untitled Document").toList) ∧
    (titleSurvivors ex3w ≠ [] →
      ∃ b ∈ titleSurvivors ex3w,
        Main.identifyDocumentTitle ex3w = stripChars b.text ∧
        ∀ b2 ∈ titleSurvivors ex3w,
          Main.titleScore b2 ≤ Main.titleScore b) ∧
    (titleSurvivors ex3w = [] → ∀ b bs,
      Main.sizeQualifying ex3w = b :: bs →
      Main.identifyDocumentTitle ex3w =
        (if stripChars b.text = [] then ("Untitled Document").toList
         else stripChars b.text))) := by
  have hsz : ∀ b ∈ ex3w, 0 ≤ b.font_size := by
    intro b hb
    simp only [ex3w, List.mem_cons, List.mem_singleton] at hb
    rcases hb with rfl | rfl | hb
    · norm_num [bW3a]
    · norm_num [bW3b]
    · cases hb
  have hpg : ∀ b ∈ ex3w, 1 ≤ b.page_number := by
    intro b hb
    simp only [ex3w, List.mem_cons, List.mem_singleton] at hb
    rcases hb with rfl | rfl | hb
    · norm_num [bW3a]
    · norm_num [bW3b]
    · cases hb
  exact ⟨hsz, hpg, c3_title_selection ex3w hsz hpg⟩

/-! ## Claim C6 — heading cap and truncation order -/

theorem c6strip1 : stripChars tEarly6 = tEarly6 := by decide

theorem c6strip2 : stripChars tLate6 = tLate6 := by decide

theorem c6body : Core.bodySize (ex6.map (fun b => b.font_size)) = 12 := by
  simp only [ex6, mkCB, List.map_cons, List.map_nil]
  unfold Core.bodySize firstModeAux
  simp only [List.foldl_cons, List.foldl_nil]
  norm_num [List.count_cons, List.count_nil]

theorem c6classT :
    Core.classifyBlock 12 tGrand6 (mkCB tGrand6 24 30) = none := by
  unfold Core.classifyBlock
  rw [if_pos (show (mkCB tGrand6 24 30).text = tGrand6 from rfl)]

theorem c6classE :
    Core.classifyBlock 12 tGrand6 (mkCB tEarly6 16 50) =
      some { level := HLevel.H2, text := tEarly6, page := 0,
             font_size := 16, size_ratio := (16 : ℚ)/12,
             is_bold := false } := by
  unfold Core.classifyBlock
  rw [if_neg (show ¬ (mkCB tEarly6 16 50).text = tGrand6 by decide)]
  norm_num [mkCB, c6strip1]

theorem c6classL :
    Core.classifyBlock 12 tGrand6 (mkCB tLate6 18 600) =
      some { level := HLevel.H1, text := tLate6, page := 0,
             font_size := 18, size_ratio := (18 : ℚ)/12,
             is_bold := false } := by
  unfold Core.classifyBlock
  rw [if_neg (show ¬ (mkCB tLate6 18 600).text = tGrand6 by decide)]
  norm_num [mkCB, c6strip2]

theorem c6capsBody :
    ¬ (isUpperStr (stripChars tBody6) = true ∨
       isTitleStr (stripChars tBody6) = true) := by decide

theorem c6bodyNe : ¬ tBody6 = tGrand6 := by decide

theorem c6classBody (y : ℚ) :
    Core.classifyBlock 12 tGrand6 (mkCB tBody6 12 y) = none := by
  unfold Core.classifyBlock
  rw [if_neg (show ¬ (mkCB tBody6 12 y).text = tGrand6 from c6bodyNe)]
  norm_num [mkCB, c6capsBody]

theorem hfilter6 :
    List.filter (fun b => decide (b.page = 0))
      [mkCB tGrand6 24 30, mkCB tEarly6 16 50, mkCB tLate6 18 600,
       mkCB tBody6 12 100, mkCB tBody6 12 200, mkCB tBody6 12 300] =
    [mkCB tGrand6 24 30, mkCB tEarly6 16 50, mkCB tLate6 18 600,
     mkCB tBody6 12 100, mkCB tBody6 12 200, mkCB tBody6 12 300] := by
  simp [mkCB]

theorem hmax6 :
    (Core.firstMaxByFont (mkCB tGrand6 24 30)
      [mkCB tEarly6 16 50, mkCB tLate6 18 600, mkCB tBody6 12 100,
       mkCB tBody6 12 200, mkCB tBody6 12 300]).text = tGrand6 := by
  unfold Core.firstMaxByFont
  simp only [List.foldl_cons, List.foldl_nil, mkCB]
  norm_num

theorem c6bodyLit :
    Core.bodySize (List.map (fun b => b.font_size)
      [mkCB tGrand6 24 30, mkCB tEarly6 16 50, mkCB tLate6 18 600,
       mkCB tBody6 12 100, mkCB tBody6 12 200, mkCB tBody6 12 300]) = 12 := by
  simp only [mkCB, List.map_cons, List.map_nil]
  unfold Core.bodySize firstModeAux
  simp only [List.foldl_cons, List.foldl_nil]
  norm_num [List.count_cons, List.count_nil]

theorem hEL6 :
    ¬ Core.candLe
      { level := HLevel.H2, text := tEarly6, page := 0,
        font_size := 16, size_ratio := (16:ℚ)/12, is_bold := false }
      { level := HLevel.H1, text := tLate6, page := 0,
        font_size := 18, size_ratio := (18:ℚ)/12, is_bold := false } := by
  unfold Core.candLe
  norm_num

/-- Full evaluation of the module pipeline on `ex6`: the two heading
candidates come out sorted by `(page, -font_size)` — the *larger-font,
later* heading first — and the cap then keeps a prefix of that list. -/
theorem c6_eval (m : ℕ) :
    Core.identifyHeadings m ex6 = (tGrand6,
      (List.take m
        ([{ level := HLevel.H1, text := tLate6, page := 0,
            font_size := 18, size_ratio := (18:ℚ)/12, is_bold := false },
          { level := HLevel.H2, text := tEarly6, page := 0,
            font_size := 16, size_ratio := (16:ℚ)/12, is_bold := false }] :
         List Core.CoreCand)).map
        (fun c => ({ level := c.level, text := c.text, page := c.page } :
          Core.CoreHeading))) := by
  unfold Core.identifyHeadings
  simp only [ex6]
  rw [hfilter6]
  dsimp only
  rw [hmax6, c6bodyLit]
  simp only [List.filterMap_cons, List.filterMap_nil, c6classT, c6classE,
    c6classL, c6classBody]
  simp only [List.insertionSort, List.orderedInsert]
  rw [if_neg hEL6]

/-- C6 (counterexample): with a configured cap of 1 the module pipeline
keeps the heading `"Large Late"` (font 18, `y = 600`) and drops
`"Early Small"` (font 16, `y = 50`), although the dropped one comes
first in page/position order — the truncation keeps the largest-font
headings of a page, not the earliest ones. -/
theorem c6_counterexample :
    (Core.identifyHeadings 1 ex6).2 =
      [{ level := HLevel.H1, text := tLate6, page := 0 }] ∧
    (Core.identifyHeadings 2 ex6).2 =
      [{ level := HLevel.H1, text := tLate6, page := 0 },
       { level := HLevel.H2, text := tEarly6, page := 0 }] ∧
    (mkCB tEarly6 16 50).y0 < (mkCB tLate6 18 600).y0 ∧
    (mkCB tEarly6 16 50).page = (mkCB tLate6 18 600).page := by
  refine ⟨?_, ?_, by norm_num [mkCB], by norm_num [mkCB]⟩
  · rw [c6_eval 1]
    rfl
  · rw [c6_eval 2]
    rfl

/-- C6 (amended): the final outline never exceeds the configured cap —
the module pipeline truncates to `MAX_HEADINGS_PER_DOCUMENT` (default
50) for every configuration, and the script pipeline truncates to the
constant 20 (≤ the claimed default 50) — but the module truncation is
applied after sorting by `(page ascending, font_size descending)`, so
within a page it keeps the largest-font headings, not the earliest in
page/position order (see the counterexample). -/
theorem c6_heading_cap :
    (∀ (m : ℕ) (blocks : List Core.CBlock),
      (Core.identifyHeadings m blocks).2.length ≤ m) ∧
    (∀ blocks : List Main.TextBlock,
      (Main.extractHeadingsFromBlocks blocks).headings.length ≤ 20) := by
  constructor
  · intro m blocks
    cases blocks with
    | nil => simp [Core.identifyHeadings]
    | cons x bs =>
      unfold Core.identifyHeadings
      dsimp only
      rw [List.length_map, List.length_take]
      exact min_le_left _ _
  · intro blocks
    cases blocks with
    | nil => simp [Main.extractHeadingsFromBlocks]
    | cons x bs =>
      unfold Main.extractHeadingsFromBlocks
      dsimp only
      rw [List.length_map, List.length_take]
      exact min_le_left _ _

/-! ## Claim C7 — outline ordering -/

theorem c7strip1 : stripChars tAlpha7 = tAlpha7 := by decide

theorem c7strip2 : stripChars tBeta7 = tBeta7 := by decide

theorem c7capsBody :
    ¬ (isUpperStr (stripChars tBody7) = true ∨
       isTitleStr (stripChars tBody7) = true) := by decide

theorem c7bodyNe : ¬ tBody7 = tGrand7 := by decide

theorem c7classT :
    Core.classifyBlock 12 tGrand7 (mkCB tGrand7 24 20) = none := by
  unfold Core.classifyBlock
  rw [if_pos (show (mkCB tGrand7 24 20).text = tGrand7 from rfl)]

theorem c7classA :
    Core.classifyBlock 12 tGrand7 (mkCB tAlpha7 16 40) =
      some { level := HLevel.H2, text := tAlpha7, page := 0,
             font_size := 16, size_ratio := (16 : ℚ)/12,
             is_bold := false } := by
  unfold Core.classifyBlock
  rw [if_neg (show ¬ (mkCB tAlpha7 16 40).text = tGrand7 by decide)]
  norm_num [mkCB, c7strip1]

theorem c7classB :
    Core.classifyBlock 12 tGrand7 (mkCB tBeta7 18 600) =
      some { level := HLevel.H1, text := tBeta7, page := 0,
             font_size := 18, size_ratio := (18 : ℚ)/12,
             is_bold := false } := by
  unfold Core.classifyBlock
  rw [if_neg (show ¬ (mkCB tBeta7 18 600).text = tGrand7 by decide)]
  norm_num [mkCB, c7strip2]

theorem c7classBody (y : ℚ) :
    Core.classifyBlock 12 tGrand7 (mkCB tBody7 12 y) = none := by
  unfold Core.classifyBlock
  rw [if_neg (show ¬ (mkCB tBody7 12 y).text = tGrand7 from c7bodyNe)]
  norm_num [mkCB, c7capsBody]

theorem hfilter7 :
    List.filter (fun b => decide (b.page = 0))
      [mkCB tGrand7 24 20, mkCB tAlpha7 16 40, mkCB tBeta7 18 600,
       mkCB tBody7 12 100, mkCB tBody7 12 200, mkCB tBody7 12 300] =
    [mkCB tGrand7 24 20, mkCB tAlpha7 16 40, mkCB tBeta7 18 600,
     mkCB tBody7 12 100, mkCB tBody7 12 200, mkCB tBody7 12 300] := by
  simp [mkCB]

theorem hmax7 :
    (Core.firstMaxByFont (mkCB tGrand7 24 20)
      [mkCB tAlpha7 16 40, mkCB tBeta7 18 600, mkCB tBody7 12 100,
       mkCB tBody7 12 200, mkCB tBody7 12 300]).text = tGrand7 := by
  unfold Core.firstMaxByFont
  simp only [List.foldl_cons, List.foldl_nil, mkCB]
  norm_num

theorem c7bodyLit :
    Core.bodySize (List.map (fun b => b.font_size)
      [mkCB tGrand7 24 20, mkCB tAlpha7 16 40, mkCB tBeta7 18 600,
       mkCB tBody7 12 100, mkCB tBody7 12 200, mkCB tBody7 12 300]) = 12 := by
  simp only [mkCB, List.map_cons, List.map_nil]
  unfold Core.bodySize firstModeAux
  simp only [List.foldl_cons, List.foldl_nil]
  norm_num [List.count_cons, List.count_nil]

theorem hAB7 :
    ¬ Core.candLe
      { level := HLevel.H2, text := tAlpha7, page := 0,
        font_size := 16, size_ratio := (16:ℚ)/12, is_bold := false }
      { level := HLevel.H1, text := tBeta7, page := 0,
        font_size := 18, size_ratio := (18:ℚ)/12, is_bold := false } := by
  unfold Core.candLe
  norm_num

theorem c7_eval (m : ℕ) :
    Core.identifyHeadings m ex7 = (tGrand7,
      (List.take m
        ([{ level := HLevel.H1, text := tBeta7, page := 0,
            font_size := 18, size_ratio := (18:ℚ)/12, is_bold := false },
          { level := HLevel.H2, text := tAlpha7, page := 0,
            font_size := 16, size_ratio := (16:ℚ)/12, is_bold := false }] :
         List Core.CoreCand)).map
        (fun c => ({ level := c.level, text := c.text, page := c.page } :
          Core.CoreHeading))) := by
  unfold Core.identifyHeadings
  simp only [ex7, bAlpha7, bBeta7]
  rw [hfilter7]
  dsimp only
  rw [hmax7, c7bodyLit]
  simp only [List.filterMap_cons, List.filterMap_nil, c7classT, c7classA,
    c7classB, c7classBody]
  simp only [List.insertionSort, List.orderedInsert]
  rw [if_neg hAB7]

/-- C7 (counterexample): in the module pipeline's outline for `ex7`, the
heading derived from the block at `y = 600` (`"Beta Heading"`, font 18)
precedes the heading derived from the block at `y = 40`
(`"Alpha Heading"`, font 16) on the same page: `_identify_headings`
sorts by `(page, -font_size)`, not by `(page, y)`, so the produced
heading sequence is not in reading order. -/
theorem c7_counterexample :
    (Core.identifyHeadings 50 ex7).2 =
      [{ level := HLevel.H1, text := tBeta7, page := 0 },
       { level := HLevel.H2, text := tAlpha7, page := 0 }] ∧
    bAlpha7.text = tAlpha7 ∧ bBeta7.text = tBeta7 ∧
    bAlpha7.y0 < bBeta7.y0 ∧ bAlpha7.page = bBeta7.page := by
  refine ⟨?_, rfl, rfl, by norm_num [bAlpha7, bBeta7, mkCB], rfl⟩
  rw [c7_eval 50]
  rfl

/-- Model of `classifiedLe` is total (lexicographic on `(page, y)`). -/
instance : IsTotal Main.Classified Main.classifiedLe where
  total := by
    intro a b
    unfold Main.classifiedLe
    rcases Nat.lt_trichotomy a.page b.page with h | h | h
    · exact Or.inl (Or.inl h)
    · rcases le_total a.position.y b.position.y with hy | hy
      · exact Or.inl (Or.inr ⟨h, hy⟩)
      · exact Or.inr (Or.inr ⟨h.symm, hy⟩)
    · exact Or.inr (Or.inl h)

/-- Model of `classifiedLe` is transitive. -/
instance : IsTrans Main.Classified Main.classifiedLe where
  trans := by
    intro a b c hab hbc
    unfold Main.classifiedLe at *
    rcases hab with h1 | ⟨h1, hy1⟩
    · rcases hbc with h2 | ⟨h2, _⟩
      · exact Or.inl (h1.trans h2)
      · exact Or.inl (h2 ▸ h1)
    · rcases hbc with h2 | ⟨h2, hy2⟩
      · exact Or.inl (h1 ▸ h2)
      · exact Or.inr ⟨h1.trans h2, hy1.trans hy2⟩

/-- The neighbour adjustment never touches page or position. -/
theorem adjust_page_pos (p : Option Main.Classified)
    (c n : Main.Classified) :
    (Main.adjustHeading p c n).page = c.page ∧
    (Main.adjustHeading p c n).position = c.position := by
  rcases adjustHeading_cases p c n with h | h <;> rw [h] <;> exact ⟨rfl, rfl⟩

/-- The refiner pass preserves the `(page, y)` sequence. -/
theorem refineAux_map_pageY (l : List Main.Classified) :
    ∀ p : Option Main.Classified,
      (Main.refineAux p l).map (fun h => (h.page, h.position.y)) =
        l.map (fun h => (h.page, h.position.y)) := by
  induction l with
  | nil => intro p; rfl
  | cons x rest ih =>
    intro p
    cases rest with
    | nil => rfl
    | cons y rest2 =>
      simp only [Main.refineAux, List.map_cons]
      have hpp := adjust_page_pos p x y
      rw [ih (some (Main.adjustHeading p x y)), hpp.1, hpp.2]
      simp

theorem refine_map_pageY (l : List Main.Classified) :
    (Main.refineHeadingHierarchy l).map (fun h => (h.page, h.position.y)) =
      l.map (fun h => (h.page, h.position.y)) := by
  unfold Main.refineHeadingHierarchy
  split_ifs with h
  · rfl
  · exact refineAux_map_pageY l none

/-- Lexicographic `(page, y)` order on the projected pairs. -/
def pairLe (a b : ℕ × ℚ) : Prop :=
  a.1 < b.1 ∨ (a.1 = b.1 ∧ a.2 ≤ b.2)

theorem sorted_refine (l : List Main.Classified)
    (h : List.Sorted Main.classifiedLe l) :
    List.Sorted Main.classifiedLe (Main.refineHeadingHierarchy l) := by
  have h1 : List.Pairwise pairLe
      (l.map (fun h => (h.page, h.position.y))) := by
    rw [List.pairwise_map]
    exact h
  rw [← refine_map_pageY] at h1
  rw [List.pairwise_map] at h1
  exact h1

/-- C7 (amended): in the *script* pipeline every produced outline is
sorted non-decreasingly by `(page, y)` — the classifier sorts by that
key, the refiner and the truncation preserve the order; the *module*
pipeline instead orders by `(page ascending, font_size descending)`
(see the counterexample). -/
theorem c7_outline_sorted (blocks : List Main.TextBlock) :
    List.Sorted pageYLe (Main.extractHeadingsFromBlocks blocks).headings := by
  cases blocks with
  | nil => simp [Main.extractHeadingsFromBlocks]
  | cons x bs =>
    unfold Main.extractHeadingsFromBlocks
    dsimp only
    cases hc : Main.filterHeadingCandidates (x :: bs)
        (Main.analyzeFontStyles (x :: bs)) with
    | nil =>
      unfold Main.classifyHeadingLevels
      simp
    | cons c cs =>
      unfold Main.classifyHeadingLevels
      dsimp only
      have hs : List.Sorted Main.classifiedLe
          (Main.refineHeadingHierarchy
            (List.insertionSort Main.classifiedLe
              ((c :: cs).map
                (Main.classifyOne (Main.analyzeFontStyles (x :: bs)))))) :=
        sorted_refine _ (List.sorted_insertionSort _ _)
      have ht : List.Sorted Main.classifiedLe
          ((Main.refineHeadingHierarchy
            (List.insertionSort Main.classifiedLe
              ((c :: cs).map
                (Main.classifyOne (Main.analyzeFontStyles (x :: bs)))))).take
            20) :=
        List.Pairwise.sublist (List.take_sublist _ _) hs
      exact List.Pairwise.map _ (fun a b hab => hab) ht

/-! ## Claim C9 — diacritic stripping only for RTL scripts -/

/-- Model of `_normalize_width` preserves Arabic diacritics: it only rewrites
full-width ASCII (`U+FF01`–`U+FF5E`), and its outputs (`U+0021`–`U+007E`)
are never Arabic diacritics. -/
theorem mem_normalizeWidth_diacritic (u : List Char) (c : Char)
    (hc : MLUtils.isArabicDiacritic c = true) :
    c ∈ MLMod.normalizeWidth u ↔ c ∈ u := by
  have hcr : 0x064B ≤ c.toNat ∧ c.toNat ≤ 0x06ED := by
    unfold MLUtils.isArabicDiacritic at hc
    simp only [Bool.or_eq_true, decide_eq_true_eq] at hc
    omega
  unfold MLMod.normalizeWidth
  rw [List.mem_map]
  constructor
  · rintro ⟨d, hd, hdc⟩
    by_cases hw : 0xFF01 ≤ d.toNat ∧ d.toNat ≤ 0xFF5E
    · exfalso
      rw [if_pos hw] at hdc
      have hv : (Char.ofNat (d.toNat - 0xFEE0)).toNat = d.toNat - 0xFEE0 := by
        unfold Char.ofNat
        rw [dif_pos]
        · rfl
        · exact Or.inl (by omega)
      rw [hdc] at hv
      omega
    · rw [if_neg hw] at hdc
      rw [← hdc]
      exact hd
  · intro hcu
    refine ⟨c, hcu, ?_⟩
    rw [if_neg (by omega)]

/-- C9 (confirmed): in both normalizers, Arabic diacritics are stripped
only after script detection on the cleaned text and only when the
detected script is an RTL family — `'arabic'` in
`src/utils/multilingual.py`, `'arabic'`/`'hebrew'` in
`docudots_module/multilingual.py`.  For any other detected script
(including `'unknown'`) the stripping step is not applied: the utils
normalizer returns the cleaned text unchanged, and the module normalizer
returns it unchanged or width-normalized, which preserves every Arabic
diacritic character. -/
theorem c9_rtl_only_stripping (nfc nfkc nfd : List Char → List Char)
    (isMn : Char → Bool) (t : List Char) (hne : t ≠ []) :
    (MLUtils.detectScript (stripChars (collapseWS (nfc t))) ≠
        ("arabic").toList →
      MLUtils.normalizeText nfc t = stripChars (collapseWS (nfc t))) ∧
    (MLMod.detectScript (stripChars (collapseWS (nfkc t))) ≠
        ("arabic").toList →
     MLMod.detectScript (stripChars (collapseWS (nfkc t))) ≠
        ("hebrew").toList →
      (MLMod.normalizeText nfkc nfd isMn t =
          stripChars (collapseWS (nfkc t)) ∨
       MLMod.normalizeText nfkc nfd isMn t =
          MLMod.normalizeWidth (stripChars (collapseWS (nfkc t)))) ∧
      ∀ c : Char, MLUtils.isArabicDiacritic c = true →
        (c ∈ MLMod.normalizeText nfkc nfd isMn t ↔
         c ∈ stripChars (collapseWS (nfkc t)))) := by
  cases t with
  | nil => exact absurd rfl hne
  | cons a as =>
    constructor
    · intro hscript
      unfold MLUtils.normalizeText
      rw [if_neg hscript]
    · intro hsa hsh
      have hres : MLMod.normalizeText nfkc nfd isMn (a :: as) =
          (if MLMod.detectScript (stripChars (collapseWS (nfkc (a :: as)))) =
                ("chinese").toList ∨
              MLMod.detectScript (stripChars (collapseWS (nfkc (a :: as)))) =
                ("japanese").toList
           then MLMod.normalizeWidth (stripChars (collapseWS (nfkc (a :: as))))
           else stripChars (collapseWS (nfkc (a :: as)))) := by
        unfold MLMod.normalizeText
        rw [if_neg (by
          intro h
          rcases h with h | h
          · exact hsa h
          · exact hsh h)]
      constructor
      · rw [hres]
        split_ifs with h
        · exact Or.inr rfl
        · exact Or.inl rfl
      · intro c hc
        rw [hres]
        split_ifs with h
        · exact mem_normalizeWidth_diacritic _ c hc
        · exact Iff.rfl

/-- Witness for `c9_rtl_only_stripping` with identity Unicode
normalizers on the text `"7"`. -/
theorem c9_rtl_only_stripping_witness :
    ("7").toList ≠ ([] : List Char) ∧
    ((MLUtils.detectScript (stripChars (collapseWS (id (("7").toList)))) ≠
        ("arabic").toList →
      MLUtils.normalizeText id (("7").toList) =
        stripChars (collapseWS (id (("7").toList)))) ∧
    (MLMod.detectScript (stripChars (collapseWS (id (("7").toList)))) ≠
        ("arabic").toList →
     MLMod.detectScript (stripChars (collapseWS (id (("7").toList)))) ≠
        ("hebrew").toList →
      (MLMod.normalizeText id id (fun _ => false) (("7").toList) =
          stripChars (collapseWS (id (("7").toList))) ∨
       MLMod.normalizeText id id (fun _ => false) (("7").toList) =
          MLMod.normalizeWidth (stripChars (collapseWS (id (("7").toList))))) ∧
      ∀ c : Char, MLUtils.isArabicDiacritic c = true →
        (c ∈ MLMod.normalizeText id id (fun _ => false) (("7").toList) ↔
         c ∈ stripChars (collapseWS (id (("7").toList)))))) :=
  ⟨by decide,
   c9_rtl_only_stripping id id id (fun _ => false) (("7").toList) (by decide)⟩
